import Mathlib

set_option maxRecDepth 100000

/-!
Verification of the mock_interview_ai repository.

This file gives a shallow embedding, in Lean 4, of the pure logic of the
repository's five Python source files:

  * phase3_backend_question_gen/question_generator.py
  * phase3_backend_question_gen/question_bank.py
  * phase3_backend_question_gen/ai_utils.py
  * phase4_answer_evaluation/evaluator.py
  * phase2_resume_extraction/resume_parser.py

External effects (the Gemini network calls, file reading, json parsing by the
standard library) are modelled as explicit parameters: every network attempt's
outcome is a value of an outcome type supplied through a configuration record,
and json.loads is an abstract parameter returning an optional parsed value.
Python dictionaries declared as TypedDicts are modelled as Lean structures;
Python strings are Lean Strings, with Python's str.lower/str.strip/str.title
and the `in` operator re-implemented over character lists (ASCII semantics,
which covers every literal appearing in the sources).
-/

/-! ## Python string primitives -/

/-- Python `needle in hay` for strings: substring occurrence. -/
def strContains (hay needle : String) : Bool :=
  decide (needle.data <:+: hay.data)

/-- Python `s.lower()` (ASCII case folding, which covers the sources). -/
def pyLower (s : String) : String :=
  String.mk (s.data.map Char.toLower)

/-- Python `s.strip()`: remove leading and trailing whitespace. -/
def pyStrip (s : String) : String :=
  String.mk (((s.data.dropWhile Char.isWhitespace).reverse.dropWhile Char.isWhitespace).reverse)

/-- Python `s.replace(old, new)` over character lists: replace every
    (leftmost-first, non-overlapping) occurrence of `old` by `new`. -/
def listReplaceGo (old new : List Char) : Nat → List Char → List Char
  | 0, l => l
  | _ + 1, [] => []
  | fuel + 1, c :: rest =>
    if old ≠ [] ∧ old <+: (c :: rest) then
      new ++ listReplaceGo old new fuel ((c :: rest).drop old.length)
    else
      c :: listReplaceGo old new fuel rest

/-- The scan always makes progress, so the input's length is enough fuel for
    `listReplaceGo` (the fuel is only a structural-recursion device). -/
def listReplace (old new : List Char) (l : List Char) : List Char :=
  listReplaceGo old new l.length l

/-- Python `s.replace(old, new)` at String level. -/
def pyReplace (s old new : String) : String :=
  String.mk (listReplace old.data new.data s.data)

/-- Python `s[:n]` for `n ≥ 0`: first `n` characters. -/
def pyTakeStr (n : Nat) (s : String) : String :=
  String.mk (s.data.take n)

/-- Python `s.startswith(pre)`. -/
def pyStartsWith (s pre : String) : Bool :=
  decide (pre.data <+: s.data)

/-- Python `s.endswith(suf)`. -/
def pyEndsWith (s suf : String) : Bool :=
  decide (suf.data <:+ s.data)

/-- Python `l[:k]` where `k` may be negative (then it drops the last `|k|`
    elements, or yields `[]` when `|k| ≥ len(l)`). -/
def pyTakeInt {α : Type} (n : Int) (xs : List α) : List α :=
  if 0 ≤ n then xs.take n.toNat else xs.take (xs.length - (-n).toNat)

/-! ## question_generator.py: the Question record and the structure enforcer -/

/-- The `Question` TypedDict of question_generator.py.  `initial_code` is
    NotRequired in the source; a question built without it is modelled with
    the empty string, which no code path distinguishes from absence. -/
structure Question where
  id : Int
  text : String
  qtype : String
  difficulty : String
  context : String
  initial_code : String := ""
deriving Repr, DecidableEq, Inhabited

/-- Intro patterns of `_enforce_interview_structure` (lines 135-136). -/
def intro_keywords : List String :=
  ["tell me about yourself", "walk me through your background",
   "introduce yourself", "background", "what interested you"]

/-- Closing patterns of `_enforce_interview_structure` (lines 139-140). -/
def closing_keywords : List String :=
  ["why hire you", "why should we hire", "what unique value",
   "great fit for this role", "wrap up", "any questions for"]

/-- `is_intro_question` (lines 142-144). -/
def is_intro_question (q : Question) : Bool :=
  intro_keywords.any (fun keyword => strContains (pyLower q.text) keyword)

/-- `is_closing_question` (lines 146-148). -/
def is_closing_question (q : Question) : Bool :=
  closing_keywords.any (fun keyword => strContains (pyLower q.text) keyword)

/-- The id-reassignment loop `for idx, q in enumerate(qs, start=start)`,
    setting `q["id"] = idx`. -/
def assignIdsFrom (start : Nat) : List Question → List Question
  | [] => []
  | q :: rest => { q with id := (start : Int) } :: assignIdsFrom (start + 1) rest

/-- `for idx, q in enumerate(questions, start=1): q["id"] = idx`. -/
def assignIds (qs : List Question) : List Question :=
  assignIdsFrom 1 qs

/-- One step of the extraction loop of `_enforce_interview_structure`
    (lines 173-179): state is (intro_q, closing_q, middle_questions). -/
def extractGo (st : Option Question × Option Question × List Question) (q : Question) :
    Option Question × Option Question × List Question :=
  if is_intro_question q && st.1.isNone then (some q, st.2.1, st.2.2)
  else if is_closing_question q && st.2.1.isNone then (st.1, some q, st.2.2)
  else (st.1, st.2.1, st.2.2 ++ [q])

/-- The full extraction loop over the candidate questions. -/
def extractParts (qs : List Question) : Option Question × Option Question × List Question :=
  qs.foldl extractGo (none, none, [])

/-- The default intro question created at lines 183-190 when none was found. -/
def qg_default_intro (role : String) : Question :=
  { id := 1
    text := "To get us started, could you walk me through your background and what specifically interested you about this " ++ role ++ " position?"
    qtype := "behavioral"
    difficulty := "easy"
    context := "Opening question to establish rapport"
    initial_code := "" }

/-- The default closing question created at lines 195-202 when none was found
    and more than two questions were requested. -/
def qg_default_closing : Question :=
  { id := 999
    text := "Before we wrap up, why do you think you'd be a great fit for this role, and what unique value would you bring to our team?"
    qtype := "behavioral"
    difficulty := "medium"
    context := "Closing question to assess self-awareness and fit"
    initial_code := "" }

/-- The emergency fallback question appended at lines 217-220 when the middle
    pool is empty.  The source dict carries no initial_code key; the record
    default (empty string) models that. -/
def qg_emergency : Question :=
  { id := 0
    text := "Could you walk me through a technical challenge you've faced?"
    qtype := "technical"
    difficulty := "medium"
    context := "Emergency fallback" }

/-- The context suffix appended by the gap filler of the enforcer (line 226). -/
def extSuffix : String := " (Extended discussion)"

/-- The gap-filling `while` loop of `_enforce_interview_structure`
    (lines 213-229).  Note the base question is drawn from the CURRENT
    (growing) list: `middle_questions[current_fill_idx % len(middle_questions)]`.
    `target` is an Int because `num_questions - 2` may be negative in Python. -/
def gapFillGo (target : Int) : Nat → List Question → Nat → List Question
  | 0, middle, _ => middle
  | fuel + 1, middle, fillIdx =>
    if (middle.length : Int) < target then
      match middle with
      | [] => gapFillGo target fuel [qg_emergency] fillIdx
      | m :: ms =>
        let base := (m :: ms).getD (fillIdx % (m :: ms).length) qg_emergency
        gapFillGo target fuel
          ((m :: ms) ++ [{ base with context := base.context ++ extSuffix }]) (fillIdx + 1)
    else middle

/-- Every loop iteration grows the list by one, so `(target - len).toNat` is
    exactly enough fuel (the fuel is only a structural-recursion device). -/
def gapFill (middle : List Question) (target : Int) (fillIdx : Nat) : List Question :=
  gapFillGo target (target - middle.length).toNat middle fillIdx

/-- The structure precheck of `_enforce_interview_structure` (lines 150-159):
    `first_is_intro and (len(questions) <= 2 or last_is_closing)`, where
    `last_is_closing` is only computed (else False) for more than two
    questions. -/
def passesStructureCheck : List Question → Bool
  | [] => false
  | q0 :: rest =>
    is_intro_question q0 &&
      (decide ((q0 :: rest).length ≤ 2) ||
        (if (q0 :: rest).length > 2 then is_closing_question ((q0 :: rest).getLastD q0)
         else false))

/-- The rebuild branch of `_enforce_interview_structure` (lines 165-243). -/
def enforceRebuild (questions : List Question) (role : String) (num_questions : Nat) :
    List Question :=
  let parts := extractParts questions
  let intro_q := parts.1.getD (qg_default_intro role)
  let closingOpt :=
    if parts.2.1.isNone && decide (num_questions > 2) then some qg_default_closing
    else parts.2.1
  let target : Int := (num_questions : Int) - (if closingOpt.isSome then 2 else 1)
  let middle := gapFill parts.2.2 target 0
  let final0 :=
    match closingOpt with
    | some c => intro_q :: (pyTakeInt target middle ++ [c])
    | none => intro_q :: pyTakeInt target middle
  (assignIds final0).take num_questions

/-- `_enforce_interview_structure` (question_generator.py, lines 124-243). -/
def _enforce_interview_structure (questions : List Question) (role : String)
    (num_questions : Nat) : List Question :=
  match questions with
  | [] => []
  | q0 :: rest =>
    if passesStructureCheck (q0 :: rest) then assignIds (q0 :: rest)
    else enforceRebuild (q0 :: rest) role num_questions

/-! ## question_bank.py: the static bank and get_fallback_questions -/

/-- The `QUESTION_BANK` dict of question_bank.py (lines 6-137), as an ordered
    association list (Python dicts preserve insertion order). -/
def QUESTION_BANK : List (String × List Question) :=
  [("python",
    [{ id := 1001
       text := "For a start, I see you've worked with Python. If you were explaining the practical difference between a list and a tuple to a junior developer, how would you describe when it's absolutely critical to use one over the other?"
       qtype := "technical", difficulty := "easy"
       context := "Core Python proficiency with a conversational lens."
       initial_code := "" },
     { id := 1002
       text := "I'm curious about your experience with advanced Python features. How have you used decorators in your previous projects to clean up or extend your code's functionality?"
       qtype := "technical", difficulty := "medium"
       context := "Advanced Python concepts in a practical context."
       initial_code := "" },
     { id := 1003
       text := "Let's look at a quick coding scenario. Could you write a short function for me that takes a string and returns it reversed? For example, 'hello' becoming 'olleh'."
       qtype := "coding", difficulty := "easy"
       context := "Basic algorithmic thinking."
       initial_code := "def reverse_string(s):\n    # Your code here\n    pass" }]),
   ("javascript",
    [{ id := 2001
       text := "What is the difference between '==' and '===' in JavaScript?"
       qtype := "technical", difficulty := "easy"
       context := "JS fundamentals."
       initial_code := "" },
     { id := 2002
       text := "Explain the concept of 'closures' in JavaScript with an example."
       qtype := "technical", difficulty := "medium"
       context := "Scope and memory management in JS."
       initial_code := "" },
     { id := 2003
       text := "Write a function that filters an array of numbers to return only the even ones."
       qtype := "coding", difficulty := "easy"
       context := "Array manipulation in JS."
       initial_code := "function filterEvens(arr) \x7b\n    // Your code here\n\x7d" }]),
   ("react",
    [{ id := 3001
       text := "What are React Hooks? Explain useState and useEffect."
       qtype := "technical", difficulty := "easy"
       context := "Modern React development."
       initial_code := "" },
     { id := 3002
       text := "What is the Virtual DOM, and how does React use it to improve performance?"
       qtype := "technical", difficulty := "medium"
       context := "React architecture."
       initial_code := "" }]),
   ("general_technical",
    [{ id := 5001
       text := "Could you walk me through your debugging process? For example, when you hit a complex bug that isn't immediately obvious, what steps do you take to isolate the root cause?"
       qtype := "technical", difficulty := "medium"
       context := "Debugging and problem-solving methodology."
       initial_code := "" },
     { id := 5002
       text := "How do you approach testing your code? Do you lean more towards unit testing, integration testing, or a mix, and why?"
       qtype := "technical", difficulty := "easy"
       context := "Quality assurance mindset."
       initial_code := "" },
     { id := 5003
       text := "When picking a new tool or library for a project, what criteria do you look for to decide if it's the right choice?"
       qtype := "technical", difficulty := "medium"
       context := "Tech stack decision making."
       initial_code := "" }]),
   ("general_behavioral",
    [{ id := 4001
       text := "I'd love to hear about a project that really challenged you. What was the biggest hurdle you hit, and how did you navigate through it to get the results you wanted?"
       qtype := "behavioral", difficulty := "medium"
       context := "Problem-solving and resilience."
       initial_code := "" },
     { id := 4002
       text := "Thinking about your future, where do you see your career heading in the next couple of years, particularly in terms of the technical skills you want to master?"
       qtype := "behavioral", difficulty := "easy"
       context := "Ambition and career alignment."
       initial_code := "" },
     { id := 4003
       text := "We all hit points of friction in a team. Could you share a time when you disagreed with a teammate? How did you approach that conversation to find a path forward?"
       qtype := "behavioral", difficulty := "easy"
       context := "Conflict resolution and teamwork."
       initial_code := "" },
     { id := 4004
       text := "Can you describe a specific time you had to learn a new technology quickly to get a job done? How did you go about it?"
       qtype := "behavioral", difficulty := "medium"
       context := "Adaptability and learning agility."
       initial_code := "" }])]

/-- `QUESTION_BANK.get(key, [])`. -/
def bankLookup (key : String) : List Question :=
  ((QUESTION_BANK.find? (fun p => p.1 == key)).map (fun p => p.2)).getD []

/-- The intro question built by `get_fallback_questions` (lines 147-154). -/
def qb_intro_question (role : String) : Question :=
  { id := 1
    text := "To get us started, could you walk me through your background and what specifically interested you about this " ++ role ++ " position?"
    qtype := "behavioral"
    difficulty := "easy"
    context := "Opening question to establish rapport"
    initial_code := "" }

/-- The closing question built by `get_fallback_questions` (lines 202-209). -/
def qb_closing_question : Question :=
  { id := 9999
    text := "Before we wrap up, why do you think you'd be a great fit for this role, and what unique value would you bring to our team?"
    qtype := "behavioral"
    difficulty := "medium"
    context := "Closing question to assess self-awareness and fit"
    initial_code := "" }

/-- The context suffix of the cyclic filler of question_bank.py (line 195). -/
def fuSuffix : String := " (Follow-up / Alternate angle)"

/-- The cyclic-filling `while` loop of `get_fallback_questions` (lines 185-198).
    The pool is fixed; entries are appended to the accumulating final list, and
    an entry built from a wrap-around index (`current_idx >= len(middle_pool)`)
    gets the follow-up suffix appended to its context. -/
def qbFillGo (pool : List Question) (num : Nat) : Nat → List Question → Nat → List Question
  | 0, acc, _ => acc
  | fuel + 1, acc, idx =>
    if acc.length < num - 1 then
      if pool.isEmpty then acc
      else
        let base := pool.getD (idx % pool.length) qg_emergency
        let newQ :=
          if pool.length ≤ idx then { base with context := base.context ++ fuSuffix }
          else base
        qbFillGo pool num fuel (acc ++ [newQ]) (idx + 1)
    else acc

/-- Every loop iteration appends one entry, so `(num - 1) - len(acc)` is
    exactly enough fuel (the fuel is only a structural-recursion device). -/
def qbFill (pool : List Question) (acc : List Question) (idx : Nat) (num : Nat) :
    List Question :=
  qbFillGo pool num ((num - 1) - acc.length) acc idx

/-- The candidate-gathering fold of `get_fallback_questions` (lines 160-162):
    skills other than the two general categories whose key occurs in the
    lowercased resume contribute their questions, in bank order. -/
def gatherCandidates (resume_lower : String) : List Question :=
  QUESTION_BANK.foldl
    (fun acc p =>
      if !(p.1 == "general_behavioral" || p.1 == "general_technical")
          && strContains resume_lower p.1 then
        acc ++ p.2
      else acc)
    []

/-- `get_fallback_questions` (question_bank.py, lines 139-216). -/
def get_fallback_questions (resume_text role : String) (num_questions : Nat) :
    List Question :=
  let resume_lower := pyLower resume_text
  let candidate0 := gatherCandidates resume_lower
  let candidate1 := if candidate0.isEmpty then candidate0 ++ bankLookup "python" else candidate0
  let candidate2 := candidate1 ++ bankLookup "general_technical"
  let behavioral := bankLookup "general_behavioral"
  let middle_pool := candidate2 ++ behavioral
  let final0 := qbFill middle_pool [qb_intro_question role] 0 num_questions
  let final1 := if num_questions > 1 then final0 ++ [qb_closing_question] else final0
  (assignIds final1).take num_questions

/-! ## ai_utils.py: run_genai_with_rotation

The Gemini library is external: each (key index, model index) generation
attempt's outcome, each per-key upload outcome, and each configure outcome is
supplied through a `RotCfg` record.  The function below mirrors the two nested
loops of `run_genai_with_rotation` (lines 41-124) and additionally returns the
trace of generation attempts, as (key index, model index) pairs in the order
they were made, so that temporal claims about attempts can be stated. -/

/-- Outcome of one `model.generate_content` call: either a response whose
    `.text` is the given string (Python treats an empty text as falsy and
    silently moves on), or a raised exception with message `str(e)`. -/
inductive GenOutcome where
  | success (text : String)
  | failure (msg : String)
deriving Repr, DecidableEq

/-- The six-entry CANDIDATE_MODELS list (ai_utils.py, lines 11-18). -/
def CANDIDATE_MODELS : List String :=
  ["gemini-2.5-flash", "gemini-2.5-pro", "gemini-2.0-flash",
   "gemini-2.0-flash-lite", "gemini-flash-latest", "gemini-pro-latest"]

/-- Environment/behavior configuration for one rotation call. -/
structure RotCfg where
  keys : List String
  models : List String
  configureOk : Nat → Bool
  upload : Option (Nat → Except String Unit)
  gen : Nat → Nat → GenOutcome

/-- The inner model loop (lines 78-113) for key index `ki`, starting at model
    index `mi`, threading `last_error` and the attempt trace.  Returns
    (successful text if any, last_error, trace).  A message containing "429"
    breaks out of the model loop (line 104-106); a "404" and any other error
    both move on to the next model (lines 109-113). -/
def runModelsGo (cfg : RotCfg) (ki : Nat) :
    Nat → Nat → Option String → List (Nat × Nat) →
    Option String × Option String × List (Nat × Nat)
  | 0, _, lastErr, trace => (none, lastErr, trace)
  | fuel + 1, mi, lastErr, trace =>
    if mi < cfg.models.length then
      let trace1 := trace ++ [(ki, mi)]
      match cfg.gen ki mi with
      | .success t =>
        if t ≠ "" then (some t, lastErr, trace1)
        else runModelsGo cfg ki fuel (mi + 1) lastErr trace1
      | .failure msg =>
        if strContains msg "429" then (none, some msg, trace1)
        else runModelsGo cfg ki fuel (mi + 1) (some msg) trace1
    else (none, lastErr, trace)

/-- The model loop visits each remaining model index once, so
    `models.length - mi` is exactly enough fuel. -/
def runModelsFrom (cfg : RotCfg) (ki mi : Nat) (lastErr : Option String)
    (trace : List (Nat × Nat)) : Option String × Option String × List (Nat × Nat) :=
  runModelsGo cfg ki (cfg.models.length - mi) mi lastErr trace

/-- The outer key loop (lines 59-122), from key index `ki`.  A configure
    failure just moves to the next key (lines 120-122, last_error untouched);
    an upload failure moves to the next key, recording the error only when its
    message does not contain "429" (lines 66-75). -/
def runKeysGo (cfg : RotCfg) :
    Nat → Nat → Option String → List (Nat × Nat) →
    Option String × Option String × List (Nat × Nat)
  | 0, _, lastErr, trace => (none, lastErr, trace)
  | fuel + 1, ki, lastErr, trace =>
    if ki < cfg.keys.length then
      if cfg.configureOk ki then
        match cfg.upload with
        | some up =>
          match up ki with
          | .error msg =>
            if strContains msg "429" then runKeysGo cfg fuel (ki + 1) lastErr trace
            else runKeysGo cfg fuel (ki + 1) (some msg) trace
          | .ok _ =>
            match runModelsFrom cfg ki 0 lastErr trace with
            | (some t, le, tr) => (some t, le, tr)
            | (none, le, tr) => runKeysGo cfg fuel (ki + 1) le tr
        | none =>
          match runModelsFrom cfg ki 0 lastErr trace with
          | (some t, le, tr) => (some t, le, tr)
          | (none, le, tr) => runKeysGo cfg fuel (ki + 1) le tr
      else runKeysGo cfg fuel (ki + 1) lastErr trace
    else (none, lastErr, trace)

/-- The key loop visits each remaining key index once, so
    `keys.length - ki` is exactly enough fuel. -/
def runKeysFrom (cfg : RotCfg) (ki : Nat) (lastErr : Option String)
    (trace : List (Nat × Nat)) : Option String × Option String × List (Nat × Nat) :=
  runKeysGo cfg (cfg.keys.length - ki) ki lastErr trace

/-- `run_genai_with_rotation` (ai_utils.py, lines 41-124): returns the result
    (the returned text, or the raised exception's message) together with the
    trace of generation attempts made. -/
def run_genai_with_rotation (cfg : RotCfg) : Except String String × List (Nat × Nat) :=
  if cfg.keys.isEmpty then (.error "No GEMINI_API_KEY found in .env", [])
  else
    match runKeysFrom cfg 0 none [] with
    | (some t, _, tr) => (.ok t, tr)
    | (none, le, tr) => (.error (le.getD "All API keys and models failed."), tr)

/-- An error as raised by the Gemini client: a machine-readable signal code
    and a human-readable message.  Python's `str(e)` renders both, as in
    "429 Resource has been exhausted". -/
structure GenError where
  code : Nat
  message : String
deriving Repr, DecidableEq

/-- The `str(e)` rendering the rotation and fallback code match against. -/
def errStr (e : GenError) : String :=
  toString e.code ++ " " ++ e.message

/-- The three failure classes of the error cascade. -/
inductive ErrClass where
  | quota
  | modelUnavailable
  | transient
deriving Repr, DecidableEq

/-- The classification actually performed by the sources (ai_utils.py lines
    104-113 and evaluator.py line 82): substring matching on the rendered
    error string, "429" first, then "404", else transient. -/
def classify_error (err_str : String) : ErrClass :=
  if strContains err_str "429" then .quota
  else if strContains err_str "404" then .modelUnavailable
  else .transient

/-- Whether the generation attempt (ki, mi) would be treated as a quota
    failure by the rotation loop. -/
def isQuotaAttempt (cfg : RotCfg) (p : Nat × Nat) : Bool :=
  match cfg.gen p.1 p.2 with
  | .failure msg => strContains msg "429"
  | .success _ => false

/-! ## evaluator.py: AnswerEvaluator

json.loads is external; it is modelled as a parameter of type
String → Option JValue (none = the call raised).  Pydantic's
EvaluationResult(...) construction is modelled by resultFromJson: dict.get
defaults are applied, and a type-invalid field makes the construction fail,
which the source's bare except turns into the fallback path. -/

/-- A parsed JSON value. -/
inductive JValue where
  | jnull
  | jbool (b : Bool)
  | jnum (n : Int)
  | jstr (s : String)
  | jarr (xs : List JValue)
  | jobj (fields : List (String × JValue))

/-- `data.get(key)` on a parsed JSON object. -/
def jGet (fields : List (String × JValue)) (key : String) : Option JValue :=
  (fields.find? (fun p => p.1 == key)).map (fun p => p.2)

/-- A JSON array all of whose elements are strings, as a string list. -/
def jStrings : List JValue → Option (List String)
  | [] => some []
  | .jstr s :: rest => (jStrings rest).map (fun l => s :: l)
  | _ :: _ => none

/-- The `EvaluationResult` pydantic model (evaluator.py, lines 9-14). -/
structure EvaluationResult where
  score : Int
  feedback : String
  missing_keywords : List String
  improvements : String := ""
  ideal_answer : String := ""
deriving Repr, DecidableEq

/-- The skipped-answer test (evaluator.py, line 23):
    `not answer or answer.strip() == "" or "no answer provided" in answer.lower()`. -/
def is_skipped (answer : String) : Bool :=
  answer == "" || pyStrip answer == "" || strContains (pyLower answer) "no answer provided"

/-- The evaluation prompt f-string (evaluator.py, lines 28-49), rendered. -/
def evaluation_prompt (question answer : String) : String :=
  "\n        You are an expert technical interviewer evaluating a candidate's response.\n        \n        QUESTION: \"" ++ question
  ++ "\"\n        CANDIDATE ANSWER: \""
  ++ (if is_skipped answer then "NO ANSWER PROVIDED. CANDIDATE SKIPPED." else answer)
  ++ "\"\n        \n        OBJECTIVES:\n        1. Score the answer from 0-10. "
  ++ (if is_skipped answer then "(MUST BE 0 since candidate skipped)" else "(Be fair and critical)")
  ++ "\n        2. Provide helpful feedback.\n        3. **CRITICAL**: Provide the PERECT 'Ideal Answer'. "
  ++ (if is_skipped answer then "Since the candidate skipped, create a 10/10 answer." else "Show what a 10/10 answer looks like.")
  ++ "\n        \n        **CONSTRAINT: KEEP THE IDEAL ANSWER VERY SHORT AND CONCISE (Max 2-3 sentences). Be direct.**\n        \n        RETURN JSON ONLY:\n        \x7b\n            \"score\": int,\n            \"feedback\": \"string\",\n            \"missing_keywords\": [\"list\", \"of\", \"key\", \"terms\", \"missed\"],\n            \"improvements\": \"string (what to do better)\",\n            \"ideal_answer\": \"string (Max 2-3 sentences, direct and simple)\"\n        \x7d\n        "

/-- `_fallback_evaluate` (evaluator.py, lines 78-97). -/
def _fallback_evaluate (question answer : String) (context_keywords : List String)
    (error_msg : String) : EvaluationResult :=
  if strContains error_msg "429" then
    { score := 0
      feedback := "⚠️ API Quota Limit Reached. AI evaluation is temporarily paused."
      missing_keywords := []
      improvements := "Please wait a few minutes or add more API keys to the .env file."
      ideal_answer := "Generative AI is currently taking a short break to recharge usage limits. Please check back in a bit!" }
  else
    { score := 0
      feedback := "Evaluation service unavailable. Error: " ++ pyTakeStr 100 error_msg ++ "..."
      missing_keywords := []
      improvements := "Check API Connection."
      ideal_answer := "No ideal answer provided." }

/-- The markdown-fence cleanup of the raw response (evaluator.py, lines 57-62). -/
def cleanupResponse (response_text : String) : String :=
  let t0 := pyStrip response_text
  let t1 := if pyStartsWith t0 "```json" then String.mk (t0.data.drop 7) else t0
  let t2 := if pyStartsWith t1 "```" then String.mk (t1.data.drop 3) else t1
  let t3 := if pyEndsWith t2 "```" then String.mk (t2.data.take (t2.data.length - 3)) else t2
  pyStrip t3

/-- The `EvaluationResult(score=data.get("score", 0), ...)` construction
    (evaluator.py, lines 67-73), with pydantic validation: a present but
    type-invalid field raises, which the caller's except turns into the
    fallback.  (Pydantic's lax coercion of numeric strings is not modelled;
    no theorem depends on it.) -/
def resultFromJson (fields : List (String × JValue)) : Option EvaluationResult :=
  let scoreO := match jGet fields "score" with
    | none => some (0 : Int)
    | some (.jnum n) => some n
    | some _ => none
  let feedbackO := match jGet fields "feedback" with
    | none => some "No feedback provided."
    | some (.jstr s) => some s
    | some _ => none
  let keywordsO := match jGet fields "missing_keywords" with
    | none => some ([] : List String)
    | some (.jarr xs) => jStrings xs
    | some _ => none
  let improvementsO := match jGet fields "improvements" with
    | none => some "No specific improvements suggested."
    | some (.jstr s) => some s
    | some _ => none
  let idealO := match jGet fields "ideal_answer" with
    | none => some "No ideal answer provided."
    | some (.jstr s) => some s
    | some _ => none
  match scoreO, feedbackO, keywordsO, improvementsO, idealO with
  | some sc, some fb, some kw, some imp, some ideal =>
    some { score := sc, feedback := fb, missing_keywords := kw
           improvements := imp, ideal_answer := ideal }
  | _, _, _, _, _ => none

/-- `AnswerEvaluator.evaluate` (evaluator.py, lines 21-76).  The generation
    call goes through run_genai_with_rotation on `cfg`; `loads` models
    json.loads (none = raised).  The stand-in messages for a json or pydantic
    error model the library exception text; no theorem inspects them. -/
def AnswerEvaluator_evaluate (cfg : RotCfg) (loads : String → Option JValue)
    (question answer : String) (context_keywords : List String) : EvaluationResult :=
  match (run_genai_with_rotation cfg).1 with
  | .error e => _fallback_evaluate question answer context_keywords e
  | .ok response_text =>
    let text := cleanupResponse response_text
    match loads text with
    | none => _fallback_evaluate question answer context_keywords "json decode error"
    | some (.jobj fields) =>
      match resultFromJson fields with
      | some r => r
      | none => _fallback_evaluate question answer context_keywords "pydantic validation error"
    | some _ => _fallback_evaluate question answer context_keywords "object has no attribute get"

/-! ## question_generator.py: generate_questions -/

/-- Stable insertion into an id-sorted list (an equal-id element is kept after
    earlier-inserted, i.e. earlier-positioned, elements). -/
def insertById (q : Question) : List Question → List Question
  | [] => [q]
  | x :: xs => if q.id ≤ x.id then q :: x :: xs else x :: insertById q xs

/-- `questions.sort(key=lambda x: x.get("id", 0))` (line 113): Python's stable
    ascending sort by id, modelled as stable insertion sort (extensionally the
    same function). -/
def sortById (qs : List Question) : List Question :=
  qs.foldr insertById []

/-- `QuestionGenerator.generate_questions` (question_generator.py, lines
    24-122).  The prompt text only feeds the external model, so it is not
    rendered here; `loadsQ` models json.loads followed by the extraction of
    the "questions" key (or the list itself) at lines 104-110, with none for
    a raised json error.  The bare except at line 120 catches everything,
    including the missing-credential ValueError raised inside
    run_genai_with_rotation, and falls back to the static bank, so the result
    is always `.ok`. -/
def QuestionGenerator_generate_questions (cfg : RotCfg)
    (loadsQ : String → Option (List Question)) (resume_text role : String)
    (num_questions : Nat) : Except String (List Question) :=
  match (run_genai_with_rotation cfg).1 with
  | .error _ => .ok (get_fallback_questions resume_text role num_questions)
  | .ok response_text =>
    match loadsQ response_text with
    | none => .ok (get_fallback_questions resume_text role num_questions)
    | some questions =>
      .ok (_enforce_interview_structure (sortById questions) role num_questions)

/-! ## resume_parser.py -/

/-- The tech_keywords list of `_fallback_keyword_extraction` (lines 50-55). -/
def tech_keywords : List String :=
  ["python", "javascript", "react", "next.js", "node.js", "typescript", "java", "c++",
   "aws", "azure", "docker", "kubernetes", "sql", "mongodb", "postgresql", "git",
   "html", "css", "tailwind", "fastapi", "django", "flask", "spring", "agile", "scrum",
   "machine learning", "data science", "devops", "ci/cd", "rest api", "graphql"]

/-- A regex word character (ASCII), as used by \b. -/
def isWordChar (c : Char) : Bool := c.isAlphanum || c == '_'

/-- Word-ness of an optional character; the edge of the string is non-word. -/
def wordOpt : Option Char → Bool
  | none => false
  | some c => isWordChar c

/-- A \b word boundary sits between two characters of different word-ness. -/
def boundaryAt (a b : Option Char) : Bool := wordOpt a != wordOpt b

/-- `re.search(rf"\b{re.escape(kw)}\b", text, re.IGNORECASE)` (line 58):
    does kw occur in text at a position flanked by word boundaries? -/
def reWordMatch (text kw : String) : Bool :=
  let tl := (pyLower text).data
  let kl := (pyLower kw).data
  (List.range (tl.length + 1)).any (fun i =>
    decide (kl <+: tl.drop i)
    && boundaryAt (tl.take i).getLast? kl.head?
    && boundaryAt kl.getLast? ((tl.drop i).drop kl.length).head?)

/-- Python `str.title()` (ASCII): uppercase each letter that follows a
    non-letter, lowercase the other letters. -/
def pyTitleGo : List Char → Bool → List Char
  | [], _ => []
  | c :: rest, prevAlpha =>
    (if c.isAlpha then (if prevAlpha then c.toLower else c.toUpper) else c)
      :: pyTitleGo rest c.isAlpha

/-- Python `kw.title()`. -/
def pyTitle (s : String) : String := String.mk (pyTitleGo s.data false)

/-- The dict produced by `_fallback_keyword_extraction` and
    `parse_scanned_resume_multimodal` (keys raw_text/skills/experience/projects). -/
structure ParsedResume where
  raw_text : String
  skills : List String
  experience : List String
  projects : List String
deriving Repr, DecidableEq

/-- `_fallback_keyword_extraction` (resume_parser.py, lines 48-67). -/
def _fallback_keyword_extraction (text : String) : ParsedResume :=
  let found_skills := (tech_keywords.filter (fun kw => reWordMatch text kw)).map pyTitle
  let found_exp := (((text.splitOn "\n").map pyStrip).filter (fun l => l.length > 50)).take 10
  { raw_text := text, skills := found_skills, experience := found_exp, projects := [] }

/-- The error dict built at resume_parser.py line 101. -/
def ai_error_dict (err_msg : String) : ParsedResume :=
  { raw_text := "AI_ERROR: " ++ err_msg, skills := [], experience := [], projects := [] }

/-- A resume file, through the results of the external extractors:
    `ext`/`basename` from os.path, and what extract_text_from_pdf,
    extract_text_from_docx and open().read() would return for it
    (extract_text_from_pdf returns "" when the file cannot be opened). -/
structure FileModel where
  ext : String
  basename : String
  pdfText : String
  docxText : String
  txtText : String

/-- `parse_scanned_resume_multimodal` (resume_parser.py, lines 78-101).
    `mm` is the outcome of the combined AI call and json.loads of its
    response (lines 92-93): ok with the parsed dict, or error with `str(e)`. -/
def parse_scanned_resume_multimodal (f : FileModel) (mm : Except String ParsedResume) :
    ParsedResume :=
  match mm with
  | .ok data => data
  | .error err_msg =>
    if strContains err_msg "429" then
      let text := f.pdfText
      if text.length > 10 then _fallback_keyword_extraction text
      else ai_error_dict err_msg
    else ai_error_dict err_msg

/-- Python truthiness of a JSON value. -/
def jFalsy : JValue → Bool
  | .jnull => true
  | .jbool b => !b
  | .jnum n => n == 0
  | .jstr s => s == ""
  | .jarr xs => xs.isEmpty
  | .jobj fs => fs.isEmpty

/-- `item.get(k1) or item.get(k2) or ...`: the first truthy value, if any. -/
def orGet (fields : List (String × JValue)) : List String → Option JValue
  | [] => none
  | k :: rest =>
    match jGet fields k with
    | some v => if jFalsy v then orGet fields rest else some v
    | none => orGet fields rest

/-- `json.dumps` (string escaping is not modelled; no theorem depends on the
    rendering of nested values). -/
def jsonDumps : JValue → String
  | .jnull => "null"
  | .jbool true => "true"
  | .jbool false => "false"
  | .jnum n => toString n
  | .jstr s => "\"" ++ s ++ "\""
  | .jarr xs => "[" ++ String.intercalate ", " (xs.attach.map (fun x => jsonDumps x.1)) ++ "]"
  | .jobj fs => "\x7b" ++ String.intercalate ", "
      (fs.attach.map (fun p => "\"" ++ p.1.1 ++ "\": " ++ jsonDumps p.1.2)) ++ "\x7d"
decreasing_by
  · have h1 := List.sizeOf_lt_of_mem x.2
    have h2 : sizeOf (JValue.jarr xs) = 1 + sizeOf xs := by simp
    omega
  · have h1 := List.sizeOf_lt_of_mem p.2
    have h2 : sizeOf p.1.2 ≤ sizeOf p.1 := by
      obtain ⟨a, b⟩ := p.1
      simp only [Prod.mk.sizeOf_spec]
      omega
    have h3 : sizeOf (JValue.jobj fs) = 1 + sizeOf fs := by simp
    omega

/-- Python `str(value)` on a json-parsed value (nested containers rendered
    approximately; no theorem depends on those cases). -/
def pyStrJ : JValue → String
  | .jnull => "None"
  | .jbool true => "True"
  | .jbool false => "False"
  | .jnum n => toString n
  | .jstr s => s
  | v => jsonDumps v

/-- One item of the cleanup loop of `structure_resume_data` (lines 127-132). -/
def cleanItem (item : JValue) : String :=
  match item with
  | .jstr s => s
  | .jobj fields =>
    match orGet fields ["name", "title", "role", "skill"] with
    | some v => pyStrJ v
    | none => jsonDumps item
  | v => pyStrJ v

/-- The per-key cleanup of `structure_resume_data` (lines 123-133):
    `raw_items = data.get(key, [])`, wrapped into a list if not one, then
    each item cleaned. -/
def cleanKey (data : List (String × JValue)) (key : String) : List String :=
  let rawList : List JValue :=
    match jGet data key with
    | none => []
    | some (.jarr xs) => xs
    | some v => if jFalsy v then [] else [v]
  rawList.map cleanItem

/-- The dict of skills/experience/projects lists returned by
    `structure_resume_data`. -/
structure StructuredData where
  skills : List String
  experience : List String
  projects : List String
deriving Repr, DecidableEq

/-- `structure_resume_data` (resume_parser.py, lines 103-137).  Its bare
    except turns any failure (the AI call, json.loads, a non-dict payload)
    into the empty-fields dict, so the function is total. -/
def structure_resume_data (cfg : RotCfg) (loads : String → Option JValue)
    (raw_text : String) : StructuredData :=
  match (run_genai_with_rotation cfg).1 with
  | .error _ => { skills := [], experience := [], projects := [] }
  | .ok response_text =>
    match loads response_text with
    | none => { skills := [], experience := [], projects := [] }
    | some (.jobj fields) =>
      { skills := cleanKey fields "skills"
        experience := cleanKey fields "experience"
        projects := cleanKey fields "projects" }
    | some _ => { skills := [], experience := [], projects := [] }

/-- The `ResumeData` pydantic model (resume_parser.py, lines 16-22). -/
structure ResumeData where
  text : String
  filename : String
  file_type : String
  skills : List String := []
  experience : List String := []
  projects : List String := []
deriving Repr, DecidableEq

/-- `parse_resume` (resume_parser.py, lines 139-201).  `.error` models a
    raised exception.  The try/except around structure_resume_data (lines
    191-196) is dead code, because structure_resume_data catches all its own
    exceptions, so it is elided. -/
def parse_resume (f : FileModel) (mm : Except String ParsedResume) (cfg : RotCfg)
    (loads : String → Option JValue) : Except String ResumeData :=
  if f.ext == ".pdf" || f.ext == ".docx" || f.ext == ".txt" then
    let text := if f.ext == ".pdf" then f.pdfText
                else if f.ext == ".docx" then f.docxText
                else f.txtText
    let extracted_text := pyStrip text
    if extracted_text.length < 50 then
      let data := parse_scanned_resume_multimodal f mm
      let extracted2 := pyStrip data.raw_text
      if pyStartsWith extracted2 "AI_ERROR:" then
        let error_msg := pyStrip (pyReplace extracted2 "AI_ERROR:" "")
        if strContains error_msg "429" then
          if f.pdfText.length > 0 then
            let fd := _fallback_keyword_extraction f.pdfText
            .ok { text := fd.raw_text, filename := f.basename, file_type := f.ext
                  skills := fd.skills, experience := fd.experience, projects := fd.projects }
          else
            .ok { text := "Resume uploaded (image-based, quota exhausted)"
                  filename := f.basename, file_type := f.ext
                  skills := ["General Software Development"]
                  experience := ["Professional Experience"], projects := [] }
        else .error ("AI Scan failed: " ++ error_msg)
      else
        .ok { text := extracted2, filename := f.basename, file_type := f.ext
              skills := data.skills, experience := data.experience, projects := data.projects }
    else
      let sd := structure_resume_data cfg loads extracted_text
      .ok { text := extracted_text, filename := f.basename, file_type := f.ext
            skills := sd.skills, experience := sd.experience, projects := sd.projects }
  else .error ("Unsupported file format: " ++ f.ext)

/-! ## Toolbox lemmas -/

theorem strContains_iff {hay needle : String} :
    strContains hay needle = true ↔ needle.data <:+: hay.data := by
  simp [strContains]

theorem strContains_append_left {a m : String} (b : String)
    (h : strContains a m = true) : strContains (a ++ b) m = true := by
  rw [strContains_iff] at h ⊢
  rw [String.data_append]
  exact h.trans (List.prefix_append a.data b.data).isInfix

theorem strContains_append_right (a : String) {b m : String}
    (h : strContains b m = true) : strContains (a ++ b) m = true := by
  rw [strContains_iff] at h ⊢
  rw [String.data_append]
  exact h.trans (List.suffix_append a.data b.data).isInfix

theorem pyLower_data (s : String) : (pyLower s).data = s.data.map Char.toLower := rfl

theorem pyLower_append (a b : String) : pyLower (a ++ b) = pyLower a ++ pyLower b := by
  apply congrArg String.mk
  rw [String.data_append, List.map_append]

/-- If `m` occurs in `pre ++ rest` but its first character does not occur
    in `pre`, the occurrence lies entirely inside `rest`. -/
theorem infix_right_of_head_notin {α : Type} {m pre rest : List α} {c : α}
    (hm : m <:+: pre ++ rest) (hh : m.head? = some c) (hnot : c ∉ pre) :
    m <:+: rest := by
  obtain ⟨a, b, hab⟩ := hm
  rw [List.append_assoc] at hab
  rcases List.append_eq_append_iff.mp hab with ⟨l, hpre, hmb⟩ | ⟨l, _, hrest⟩
  · cases l with
    | nil =>
      refine ⟨[], b, ?_⟩
      simpa using hmb
    | cons x l2 =>
      exfalso
      apply hnot
      cases m with
      | nil => simp at hh
      | cons c0 m2 =>
        have hc0 : c0 = c := by simpa using hh
        have hcx : c0 = x := by
          have h2 := congrArg List.head? hmb
          simpa using h2
        rw [hpre, ← hc0, hcx]
        exact List.mem_append_right a (List.mem_cons_self x l2)
  · refine ⟨l, b, ?_⟩
    rw [hrest, List.append_assoc]

theorem assignIdsFrom_length (s : Nat) (l : List Question) :
    (assignIdsFrom s l).length = l.length := by
  induction l generalizing s with
  | nil => rfl
  | cons q rest ih => simp [assignIdsFrom, ih]

theorem assignIdsFrom_map_id (s : Nat) (l : List Question) :
    (assignIdsFrom s l).map Question.id = (List.range' s l.length).map (fun n => (n : Int)) := by
  induction l generalizing s with
  | nil => rfl
  | cons q rest ih => simp [assignIdsFrom, List.range'_succ, ih]

theorem assignIdsFrom_take (s n : Nat) (l : List Question) :
    (assignIdsFrom s l).take n = assignIdsFrom s (l.take n) := by
  induction l generalizing s n with
  | nil => simp [assignIdsFrom]
  | cons q rest ih =>
    cases n with
    | zero => simp [assignIdsFrom]
    | succ n => simp [assignIdsFrom, ih]

theorem assignIdsFrom_append (s : Nat) (l1 l2 : List Question) :
    assignIdsFrom s (l1 ++ l2) = assignIdsFrom s l1 ++ assignIdsFrom (s + l1.length) l2 := by
  induction l1 generalizing s with
  | nil => simp [assignIdsFrom]
  | cons q rest ih =>
    simp only [List.cons_append, assignIdsFrom, List.length_cons, List.append_eq]
    rw [ih]
    have h1 : s + (rest.length + 1) = s + 1 + rest.length := by omega
    rw [h1]

theorem is_intro_setId (q : Question) (i : Int) :
    is_intro_question { q with id := i } = is_intro_question q := rfl

theorem is_closing_setId (q : Question) (i : Int) :
    is_closing_question { q with id := i } = is_closing_question q := rfl

theorem setId_of_id_eq (q : Question) (i : Int) (h : q.id = i) :
    ({ q with id := i } : Question) = q := by
  cases q
  simp only at h
  simp [h]

theorem assignIdsFrom_idem (s : Nat) (l : List Question) :
    assignIdsFrom s (assignIdsFrom s l) = assignIdsFrom s l := by
  induction l generalizing s with
  | nil => rfl
  | cons q rest ih => simp [assignIdsFrom, ih]

theorem assignIdsFrom_eq_self (s : Nat) (l : List Question)
    (h : l.map Question.id = (List.range' s l.length).map (fun n => (n : Int))) :
    assignIdsFrom s l = l := by
  induction l generalizing s with
  | nil => rfl
  | cons q rest ih =>
    rw [List.length_cons, List.range'_succ, List.map_cons] at h
    injection h with h1 h2
    simp only [assignIdsFrom, List.cons.injEq]
    exact ⟨setId_of_id_eq q s h1, ih (s + 1) h2⟩

theorem gapFillGo_length (target : Int) :
    ∀ (fuel : Nat) (m : List Question) (i : Nat),
      fuel = (target - m.length).toNat →
      ((gapFillGo target fuel m i).length : Int) = max (m.length : Int) target := by
  intro fuel
  induction fuel with
  | zero =>
    intro m i hf
    have h0 : target - (m.length : Int) ≤ 0 := by omega
    simp only [gapFillGo]
    omega
  | succ fuel ih =>
    intro m i hf
    have hlt : (m.length : Int) < target := by omega
    cases m with
    | nil =>
      simp only [gapFillGo, if_pos hlt]
      rw [ih [qg_emergency] i (by simp at hf ⊢; omega)]
      simp at hlt ⊢
      omega
    | cons x xs =>
      simp only [gapFillGo, if_pos hlt]
      rw [ih _ (i + 1) (by simp only [List.length_append, List.length_cons, List.length_nil] at hf ⊢; omega)]
      simp only [List.length_append, List.length_cons, List.length_nil] at hlt ⊢
      omega

theorem gapFill_length (m : List Question) (target : Int) (i : Nat) :
    ((gapFill m target i).length : Int) = max (m.length : Int) target :=
  gapFillGo_length target _ m i rfl

theorem gapFillGo_extends (target : Int) :
    ∀ (fuel : Nat) (x : Question) (xs : List Question) (i : Nat),
      ∃ extra, gapFillGo target fuel (x :: xs) i = (x :: xs) ++ extra ∧
        ∀ q ∈ extra, extSuffix.data <:+ q.context.data := by
  intro fuel
  induction fuel with
  | zero =>
    intro x xs i
    exact ⟨[], by simp [gapFillGo]⟩
  | succ fuel ih =>
    intro x xs i
    by_cases hlt : ((x :: xs).length : Int) < target
    · simp only [gapFillGo, if_pos hlt]
      set b := (x :: xs).getD (i % (x :: xs).length) qg_emergency with hb
      obtain ⟨extra, heq, hsu⟩ := ih x
        (xs ++ [{ b with context := b.context ++ extSuffix }]) (i + 1)
      rw [List.cons_append] at heq
      refine ⟨{ b with context := b.context ++ extSuffix } :: extra, ?_, ?_⟩
      · refine heq.trans ?_
        simp
      · intro q hq
        rcases List.mem_cons.mp hq with h | h
        · subst h
          simp only [String.data_append]
          exact List.suffix_append _ _
        · exact hsu q h
    · refine ⟨[], ?_, by simp⟩
      simp only [gapFillGo, if_neg hlt, List.append_nil]

theorem gapFill_extends (x : Question) (xs : List Question) (target : Int) (i : Nat) :
    ∃ extra, gapFill (x :: xs) target i = (x :: xs) ++ extra ∧
      ∀ q ∈ extra, extSuffix.data <:+ q.context.data :=
  gapFillGo_extends target _ x xs i

theorem pyTakeInt_length_of_nonneg {α : Type} {n : Int} (hn : 0 ≤ n) (xs : List α)
    (hlen : n ≤ (xs.length : Int)) : ((pyTakeInt n xs).length : Int) = n := by
  simp only [pyTakeInt, if_pos hn, List.length_take]
  omega

theorem extractFold_inv :
    ∀ (qs : List Question) (st : Option Question × Option Question × List Question),
      (∀ q, st.1 = some q → is_intro_question q = true) →
      (∀ q, st.2.1 = some q → is_closing_question q = true) →
      (∀ q, (qs.foldl extractGo st).1 = some q → is_intro_question q = true) ∧
      (∀ q, (qs.foldl extractGo st).2.1 = some q → is_closing_question q = true)
  | [], _, h1, h2 => ⟨h1, h2⟩
  | x :: rest, st, h1, h2 => by
    rw [List.foldl_cons]
    by_cases hc1 : (is_intro_question x && st.1.isNone) = true
    · refine extractFold_inv rest _ ?_ ?_
      · intro q hq
        rw [extractGo, if_pos hc1] at hq
        cases hq
        simp only [Bool.and_eq_true] at hc1
        exact hc1.1
      · intro q hq
        rw [extractGo, if_pos hc1] at hq
        exact h2 q hq
    · by_cases hc2 : (is_closing_question x && st.2.1.isNone) = true
      · refine extractFold_inv rest _ ?_ ?_
        · intro q hq
          rw [extractGo, if_neg hc1, if_pos hc2] at hq
          exact h1 q hq
        · intro q hq
          rw [extractGo, if_neg hc1, if_pos hc2] at hq
          cases hq
          simp only [Bool.and_eq_true] at hc2
          exact hc2.1
      · refine extractFold_inv rest _ ?_ ?_
        · intro q hq
          rw [extractGo, if_neg hc1, if_neg hc2] at hq
          exact h1 q hq
        · intro q hq
          rw [extractGo, if_neg hc1, if_neg hc2] at hq
          exact h2 q hq

theorem extractParts_intro (qs : List Question) (q : Question)
    (h : (extractParts qs).1 = some q) : is_intro_question q = true :=
  (extractFold_inv qs (none, none, []) (by simp) (by simp)).1 q h

theorem extractParts_closing (qs : List Question) (q : Question)
    (h : (extractParts qs).2.1 = some q) : is_closing_question q = true :=
  (extractFold_inv qs (none, none, []) (by simp) (by simp)).2 q h

theorem is_intro_default (role : String) :
    is_intro_question (qg_default_intro role) = true := by
  apply List.any_eq_true.mpr
  refine ⟨"background", by simp [intro_keywords], ?_⟩
  show strContains (pyLower
    ("To get us started, could you walk me through your background and what specifically interested you about this " ++ role ++ " position?")) "background" = true
  rw [pyLower_append, pyLower_append]
  apply strContains_append_left
  apply strContains_append_left
  decide

theorem is_closing_default : is_closing_question qg_default_closing = true := by decide

theorem is_intro_qb_intro (role : String) :
    is_intro_question (qb_intro_question role) = true :=
  is_intro_default role

theorem is_closing_qb_closing : is_closing_question qb_closing_question = true := by decide

theorem assignIds_concat_getLastD (l : List Question) (c d : Question) :
    (assignIds (l ++ [c])).getLastD d = { c with id := ((1 + l.length : Nat) : Int) } := by
  rw [assignIds, assignIdsFrom_append]
  simp only [assignIdsFrom]
  exact List.getLastD_concat _ _ _

theorem take_one_assignIds (introQ : Question) (X : List Question) :
    (assignIds (introQ :: X)).take 1 = [{ introQ with id := 1 }] := by
  simp [assignIds, assignIdsFrom]

theorem buildWithClosing_spec (introQ c : Question) (mid : List Question) (N : Nat)
    (hN : 2 ≤ N) (hi : is_intro_question introQ = true)
    (hc : is_closing_question c = true) :
    ((assignIds (introQ :: (pyTakeInt ((N : Int) - 2) (gapFill mid ((N : Int) - 2) 0) ++ [c]))).take N).length = N ∧
    ((assignIds (introQ :: (pyTakeInt ((N : Int) - 2) (gapFill mid ((N : Int) - 2) 0) ++ [c]))).take N).map Question.id
      = (List.range' 1 N).map (fun n => (n : Int)) ∧
    is_intro_question (((assignIds (introQ :: (pyTakeInt ((N : Int) - 2) (gapFill mid ((N : Int) - 2) 0) ++ [c]))).take N).headD qg_emergency) = true ∧
    (2 < N → is_closing_question (((assignIds (introQ :: (pyTakeInt ((N : Int) - 2) (gapFill mid ((N : Int) - 2) 0) ++ [c]))).take N).getLastD qg_emergency) = true) := by
  have hml := gapFill_length mid ((N : Int) - 2) 0
  have htk : ((pyTakeInt ((N : Int) - 2) (gapFill mid ((N : Int) - 2) 0)).length : Int)
      = (N : Int) - 2 := by
    apply pyTakeInt_length_of_nonneg (by omega)
    omega
  have hf0 : (introQ :: (pyTakeInt ((N : Int) - 2) (gapFill mid ((N : Int) - 2) 0) ++ [c])).length = N := by
    simp only [List.length_cons, List.length_append, List.length_cons, List.length_nil]
    omega
  have hAlen : (assignIds (introQ :: (pyTakeInt ((N : Int) - 2) (gapFill mid ((N : Int) - 2) 0) ++ [c]))).length = N := by
    rw [assignIds, assignIdsFrom_length, hf0]
  have htake : (assignIds (introQ :: (pyTakeInt ((N : Int) - 2) (gapFill mid ((N : Int) - 2) 0) ++ [c]))).take N
      = assignIds (introQ :: (pyTakeInt ((N : Int) - 2) (gapFill mid ((N : Int) - 2) 0) ++ [c])) :=
    List.take_of_length_le (by omega)
  rw [htake]
  refine ⟨hAlen, ?_, ?_, ?_⟩
  · rw [assignIds, assignIdsFrom_map_id, hf0]
  · rw [assignIds]
    simp only [assignIdsFrom, List.headD_cons]
    rw [is_intro_setId]
    exact hi
  · intro _
    have hsh : (introQ :: (pyTakeInt ((N : Int) - 2) (gapFill mid ((N : Int) - 2) 0) ++ [c]))
        = (introQ :: pyTakeInt ((N : Int) - 2) (gapFill mid ((N : Int) - 2) 0)) ++ [c] := by
      simp
    rw [hsh, assignIds_concat_getLastD, is_closing_setId]
    exact hc

theorem buildNoClosing_spec (introQ : Question) (mid : List Question) (N : Nat)
    (hN : 1 ≤ N) (hN2 : N ≤ 2) (hi : is_intro_question introQ = true) :
    ((assignIds (introQ :: pyTakeInt ((N : Int) - 1) (gapFill mid ((N : Int) - 1) 0))).take N).length = N ∧
    ((assignIds (introQ :: pyTakeInt ((N : Int) - 1) (gapFill mid ((N : Int) - 1) 0))).take N).map Question.id
      = (List.range' 1 N).map (fun n => (n : Int)) ∧
    is_intro_question (((assignIds (introQ :: pyTakeInt ((N : Int) - 1) (gapFill mid ((N : Int) - 1) 0))).take N).headD qg_emergency) = true ∧
    (2 < N → is_closing_question (((assignIds (introQ :: pyTakeInt ((N : Int) - 1) (gapFill mid ((N : Int) - 1) 0))).take N).getLastD qg_emergency) = true) := by
  have hml := gapFill_length mid ((N : Int) - 1) 0
  have htk : ((pyTakeInt ((N : Int) - 1) (gapFill mid ((N : Int) - 1) 0)).length : Int)
      = (N : Int) - 1 := by
    apply pyTakeInt_length_of_nonneg (by omega)
    omega
  have hf0 : (introQ :: pyTakeInt ((N : Int) - 1) (gapFill mid ((N : Int) - 1) 0)).length = N := by
    simp only [List.length_cons]
    omega
  have hAlen : (assignIds (introQ :: pyTakeInt ((N : Int) - 1) (gapFill mid ((N : Int) - 1) 0))).length = N := by
    rw [assignIds, assignIdsFrom_length, hf0]
  have htake : (assignIds (introQ :: pyTakeInt ((N : Int) - 1) (gapFill mid ((N : Int) - 1) 0))).take N
      = assignIds (introQ :: pyTakeInt ((N : Int) - 1) (gapFill mid ((N : Int) - 1) 0)) :=
    List.take_of_length_le (by omega)
  rw [htake]
  refine ⟨hAlen, ?_, ?_, ?_⟩
  · rw [assignIds, assignIdsFrom_map_id, hf0]
  · rw [assignIds]
    simp only [assignIdsFrom, List.headD_cons]
    rw [is_intro_setId]
    exact hi
  · intro h
    omega

theorem enforceRebuild_spec (questions : List Question) (role : String) (N : Nat)
    (hN : 1 ≤ N) :
    (enforceRebuild questions role N).length = N ∧
    (enforceRebuild questions role N).map Question.id
      = (List.range' 1 N).map (fun n => (n : Int)) ∧
    is_intro_question ((enforceRebuild questions role N).headD qg_emergency) = true ∧
    (2 < N → is_closing_question ((enforceRebuild questions role N).getLastD qg_emergency) = true) := by
  rcases hp : extractParts questions with ⟨io, co, mid⟩
  have hintro : is_intro_question (io.getD (qg_default_intro role)) = true := by
    cases io with
    | none => exact is_intro_default role
    | some q =>
      apply extractParts_intro questions q
      rw [hp]
  simp only [enforceRebuild, hp]
  by_cases hco : (co.isNone && decide (N > 2)) = true
  · have hN2 : 2 < N := by
      simp only [Bool.and_eq_true, decide_eq_true_eq] at hco
      exact hco.2
    rw [if_pos hco]
    simp only [Option.isSome_some, if_true]
    exact buildWithClosing_spec _ _ mid N (by omega) hintro is_closing_default
  · rw [if_neg hco]
    cases co with
    | some c =>
      have hclose : is_closing_question c = true := by
        apply extractParts_closing questions c
        rw [hp]
      simp only [Option.isSome_some, if_true]
      by_cases hN1 : 2 ≤ N
      · exact buildWithClosing_spec _ _ mid N hN1 hintro hclose
      · have hNeq : N = 1 := by omega
        subst hNeq
        rw [take_one_assignIds]
        refine ⟨rfl, by simp [List.range'], ?_, by omega⟩
        simp only [List.headD_cons]
        rw [is_intro_setId]
        exact hintro
    | none =>
      have hN2 : N ≤ 2 := by
        simp only [Option.isNone_none, Bool.true_and, decide_eq_true_eq] at hco
        omega
      simp only [Option.isSome_none, if_false]
      exact buildNoClosing_spec _ mid N hN hN2 hintro

theorem passesStructureCheck_true (q0 : Question) (rest : List Question)
    (h1 : is_intro_question q0 = true)
    (h2 : 2 < (q0 :: rest).length → is_closing_question ((q0 :: rest).getLastD q0) = true) :
    passesStructureCheck (q0 :: rest) = true := by
  rw [passesStructureCheck, h1, Bool.true_and]
  by_cases hl : (q0 :: rest).length ≤ 2
  · rw [decide_eq_true hl, Bool.true_or]
  · have h3 := h2 (by omega)
    rw [if_pos (by omega), h3, Bool.or_true]

theorem is_closing_assignIds_getLastD (s : Nat) (q0 : Question) (rest : List Question)
    (d d2 : Question) :
    is_closing_question ((assignIdsFrom s (q0 :: rest)).getLastD d)
      = is_closing_question ((q0 :: rest).getLastD d2) := by
  induction rest generalizing s q0 d d2 with
  | nil => simp [assignIdsFrom, is_closing_setId]
  | cons r rs ih =>
    show is_closing_question
        (({ q0 with id := (s : Int) } :: assignIdsFrom (s + 1) (r :: rs)).getLastD d) = _
    rw [List.getLastD_cons, List.getLastD_cons]
    exact ih (s + 1) r _ q0

/-- `_enforce_interview_structure` on an input passing the precheck is
    `assignIds` of the input. -/
theorem enforce_of_passes (q0 : Question) (rest : List Question) (role : String) (N : Nat)
    (h : passesStructureCheck (q0 :: rest) = true) :
    _enforce_interview_structure (q0 :: rest) role N = assignIds (q0 :: rest) := by
  rw [_enforce_interview_structure, if_pos h]

/-! ## Claim C1 -/

/-- A question matching an intro pattern, used as a concrete test input. -/
def cex_intro_q : Question :=
  { id := 42, text := "Tell me about yourself", qtype := "behavioral"
    difficulty := "easy", context := "ctx", initial_code := "" }

/-- A question matching neither intro nor closing patterns. -/
def cex_mid_q : Question :=
  { id := 7, text := "What is a monad?", qtype := "technical"
    difficulty := "hard", context := "ctx", initial_code := "" }

/-- C1 counterexample: the claim says the enforcer's output has length exactly
    the requested N for EVERY candidate list and N >= 1, and that for N > 1 the
    last entry matches a closing pattern.  But on the already-valid input
    `[cex_intro_q]` with N = 2 the enforcer takes its fast path (lines 158-163)
    and returns the single input question with id 1: length 1, not 2, and the
    last entry is the intro, not a closing. -/
theorem C1_counterexample :
    (_enforce_interview_structure [cex_intro_q] "Software Engineer" 2).length = 1 ∧
    ¬ ((_enforce_interview_structure [cex_intro_q] "Software Engineer" 2).length = 2) ∧
    is_closing_question
      ((_enforce_interview_structure [cex_intro_q] "Software Engineer" 2).getLastD qg_emergency)
      = false := by
  refine ⟨by decide, by decide, by decide⟩

/-- C1 (amended): for every NON-EMPTY candidate list that fails the enforcer's
    structure precheck (first entry not an intro, or more than two entries with
    a non-closing last entry), and every N >= 1, the returned script has length
    exactly N, ids exactly 1..N in order, a first entry matching an intro
    pattern, and — whenever N > 2 — a last entry matching a closing pattern.
    (The original claim promised the length-N and closing properties for every
    input and every N > 1; the fast path for already-valid input keeps the
    input length instead, and a rebuilt script of requested size 2 has no
    closing slot.) -/
theorem C1_enforcer_output_structure (q0 : Question) (rest : List Question)
    (role : String) (N : Nat) (hN : 1 ≤ N)
    (hfail : passesStructureCheck (q0 :: rest) = false) :
    (_enforce_interview_structure (q0 :: rest) role N).length = N ∧
    (_enforce_interview_structure (q0 :: rest) role N).map Question.id
      = (List.range' 1 N).map (fun n => (n : Int)) ∧
    is_intro_question
      ((_enforce_interview_structure (q0 :: rest) role N).headD qg_emergency) = true ∧
    (2 < N → is_closing_question
      ((_enforce_interview_structure (q0 :: rest) role N).getLastD qg_emergency) = true) := by
  rw [_enforce_interview_structure, if_neg (by rw [hfail]; simp)]
  exact enforceRebuild_spec (q0 :: rest) role N hN

/-- Witness for C1: the single non-intro question with N = 4. -/
theorem C1_witness :
    (1 ≤ 4 ∧ passesStructureCheck [cex_mid_q] = false) ∧
    ((_enforce_interview_structure [cex_mid_q] "Backend Engineer" 4).length = 4 ∧
    (_enforce_interview_structure [cex_mid_q] "Backend Engineer" 4).map Question.id
      = (List.range' 1 4).map (fun n => (n : Int)) ∧
    is_intro_question
      ((_enforce_interview_structure [cex_mid_q] "Backend Engineer" 4).headD qg_emergency) = true ∧
    (2 < 4 → is_closing_question
      ((_enforce_interview_structure [cex_mid_q] "Backend Engineer" 4).getLastD qg_emergency) = true)) :=
  ⟨⟨by omega, by decide⟩,
    C1_enforcer_output_structure cex_mid_q [] "Backend Engineer" 4 (by omega) (by decide)⟩

/-! ## Claim C9 -/

/-- C9 (confirmed): the enforcer is idempotent on already-valid input.  For a
    non-empty sequence whose first element matches an intro pattern and — when
    it has more than two elements — whose last element matches a closing
    pattern: (a) running the enforcer only reassigns ids 1..len; (b) if the ids
    already are 1..len, nothing at all changes; (c) re-running the enforcer on
    its own output changes nothing. -/
theorem C9_enforcer_idempotent (q0 : Question) (rest : List Question)
    (role : String) (N : Nat)
    (h1 : is_intro_question q0 = true)
    (h2 : 2 < (q0 :: rest).length → is_closing_question ((q0 :: rest).getLastD q0) = true) :
    _enforce_interview_structure (q0 :: rest) role N = assignIds (q0 :: rest) ∧
    ((q0 :: rest).map Question.id
        = (List.range' 1 (q0 :: rest).length).map (fun n => (n : Int)) →
      _enforce_interview_structure (q0 :: rest) role N = q0 :: rest) ∧
    _enforce_interview_structure (_enforce_interview_structure (q0 :: rest) role N) role N
      = _enforce_interview_structure (q0 :: rest) role N := by
  have hpass := passesStructureCheck_true q0 rest h1 h2
  have heq := enforce_of_passes q0 rest role N hpass
  refine ⟨heq, ?_, ?_⟩
  · intro hids
    rw [heq]
    exact assignIdsFrom_eq_self 1 (q0 :: rest) hids
  · rw [heq]
    show _enforce_interview_structure ({ q0 with id := (1 : Nat) } :: assignIdsFrom 2 rest)
        role N = _
    have h1b : is_intro_question { q0 with id := ((1 : Nat) : Int) } = true := by
      rw [is_intro_setId]
      exact h1
    have h2b : 2 < ({ q0 with id := ((1 : Nat) : Int) } :: assignIdsFrom 2 rest).length →
        is_closing_question
          (({ q0 with id := ((1 : Nat) : Int) } :: assignIdsFrom 2 rest).getLastD
            { q0 with id := ((1 : Nat) : Int) }) = true := by
      intro hlen
      have hlen2 : 2 < (q0 :: rest).length := by
        simpa [assignIdsFrom_length] using hlen
      have hcl := is_closing_assignIds_getLastD 1 q0 rest
        { q0 with id := ((1 : Nat) : Int) } q0
      rw [show assignIdsFrom 1 (q0 :: rest)
          = { q0 with id := ((1 : Nat) : Int) } :: assignIdsFrom 2 rest from rfl] at hcl
      rw [hcl]
      exact h2 hlen2
    have hpass2 := passesStructureCheck_true _ _ h1b h2b
    rw [enforce_of_passes _ _ role N hpass2]
    show assignIds (assignIdsFrom 1 (q0 :: rest)) = assignIdsFrom 1 (q0 :: rest)
    exact assignIdsFrom_idem 1 (q0 :: rest)

/-- Witness for C9: a valid three-question interview, ids already 1..3. -/
theorem C9_witness :
    (is_intro_question cex_intro_q = true) ∧
    (_enforce_interview_structure
        [cex_intro_q, cex_mid_q, qg_default_closing] "SE" 5
      = assignIds [cex_intro_q, cex_mid_q, qg_default_closing] ∧
    ([cex_intro_q, cex_mid_q, qg_default_closing].map Question.id
        = (List.range' 1 [cex_intro_q, cex_mid_q, qg_default_closing].length).map
            (fun n => (n : Int)) →
      _enforce_interview_structure [cex_intro_q, cex_mid_q, qg_default_closing] "SE" 5
        = [cex_intro_q, cex_mid_q, qg_default_closing]) ∧
    _enforce_interview_structure
        (_enforce_interview_structure [cex_intro_q, cex_mid_q, qg_default_closing] "SE" 5)
        "SE" 5
      = _enforce_interview_structure [cex_intro_q, cex_mid_q, qg_default_closing] "SE" 5) :=
  ⟨by decide,
    C9_enforcer_idempotent cex_intro_q [cex_mid_q, qg_default_closing] "SE" 5
      (by decide) (by decide)⟩

/-! ## Claim C7 -/

/-- C7 counterexample: the claim requires at least one question drawn from the
    "docker" category of the static bank, but QUESTION_BANK has no docker
    category at all (lines 6-137 define only python, javascript, react,
    general_technical, general_behavioral), so the result of the quoted call
    contains no question from a docker category. -/
theorem C7_counterexample :
    bankLookup "docker" = [] ∧
    ((get_fallback_questions "I used React and Docker" "Backend Engineer" 6).any
      (fun q => (bankLookup "docker").any (fun b => b.text == q.text))) = false :=
  ⟨rfl, by decide⟩

/-- C7 (amended): `get_fallback_questions("I used React and Docker",
    "Backend Engineer", 6)` returns exactly 6 questions with ids 1..6; the
    first is the intro question and its text references "Backend Engineer";
    the last is the closing question; and the result includes at least one
    question drawn from the react category of the bank (in fact both).  The
    bank has no docker category, so — contrary to the original claim — no
    docker question can be included. -/
theorem C7_fallback_scenario :
    (get_fallback_questions "I used React and Docker" "Backend Engineer" 6).length = 6 ∧
    (get_fallback_questions "I used React and Docker" "Backend Engineer" 6).map Question.id
      = [1, 2, 3, 4, 5, 6] ∧
    (get_fallback_questions "I used React and Docker" "Backend Engineer" 6).headD qg_emergency
      = { qb_intro_question "Backend Engineer" with id := 1 } ∧
    strContains
      (((get_fallback_questions "I used React and Docker" "Backend Engineer" 6).headD
        qg_emergency).text) "Backend Engineer" = true ∧
    (get_fallback_questions "I used React and Docker" "Backend Engineer" 6).getLastD qg_emergency
      = { qb_closing_question with id := 6 } ∧
    ((get_fallback_questions "I used React and Docker" "Backend Engineer" 6).any
      (fun q => (bankLookup "react").any (fun b => b.text == q.text))) = true := by
  refine ⟨by decide, by decide, by decide, by decide, by decide, by decide⟩

/-! ## Claim C8 -/

/-- The entry appended by iteration `i` (counting from 0) of the
    question_bank.py cyclic filler: the pool entry at `i mod len(pool)`, with
    the follow-up suffix appended when `i` is a wrap-around index. -/
def cyclicEntry (pool : List Question) (i : Nat) : Question :=
  let base := pool.getD (i % pool.length) qg_emergency
  if pool.length ≤ i then { base with context := base.context ++ fuSuffix } else base

theorem qbFillGo_spec (pool : List Question) (num : Nat) (hpool : pool.isEmpty = false) :
    ∀ (fuel : Nat) (acc : List Question) (idx : Nat),
      fuel = (num - 1) - acc.length →
      qbFillGo pool num fuel acc idx
        = acc ++ (List.range fuel).map (fun j => cyclicEntry pool (idx + j)) := by
  intro fuel
  induction fuel with
  | zero =>
    intro acc idx _
    simp [qbFillGo]
  | succ fuel ih =>
    intro acc idx hf
    have hlt : acc.length < num - 1 := by omega
    simp only [qbFillGo, if_pos hlt, hpool, Bool.false_eq_true, if_false]
    rw [show (if pool.length ≤ idx then
        { pool.getD (idx % pool.length) qg_emergency with
          context := (pool.getD (idx % pool.length) qg_emergency).context ++ fuSuffix }
        else pool.getD (idx % pool.length) qg_emergency) = cyclicEntry pool idx from rfl]
    rw [ih (acc ++ [cyclicEntry pool idx]) (idx + 1)
      (by simp only [List.length_append, List.length_cons, List.length_nil]; omega)]
    rw [List.append_assoc]
    congr 1
    rw [List.range_succ_eq_map]
    simp only [List.map_cons, List.map_map, Nat.add_zero, List.singleton_append]
    congr 1
    apply List.map_congr_left
    intro j _
    simp only [Function.comp_apply]
    congr 1
    omega

theorem qbFill_spec (pool acc : List Question) (idx num : Nat)
    (hpool : pool.isEmpty = false) :
    qbFill pool acc idx num
      = acc ++ (List.range ((num - 1) - acc.length)).map (fun j => cyclicEntry pool (idx + j)) :=
  qbFillGo_spec pool num hpool _ acc idx rfl

/-- C8 counterexample: in the enforcer's gap filler the base entry is drawn
    from the GROWING list (`middle_questions[current_fill_idx %
    len(middle_questions)]`, line 224), so a filler can clone an earlier
    filler.  With source pool `[cex_mid_q]` (context "ctx") and target 3, the
    entry at wrap-around index 2 carries the suffix TWICE, instead of being a
    copy of the source entry at 2 mod 1 = 0 with the suffix appended exactly
    once as the claim states. -/
theorem C8_counterexample :
    ((gapFill [cex_mid_q] 3 0).getD 2 qg_emergency).context
      = "ctx (Extended discussion) (Extended discussion)" ∧
    ((gapFill [cex_mid_q] 3 0).getD 2 qg_emergency)
      ≠ { cex_mid_q with context := cex_mid_q.context ++ extSuffix } :=
  ⟨by decide, by decide⟩

/-- C8 (amended): the claim holds as stated for the cyclic filler of
    question_bank.py, whose pool is fixed: the entry produced by iteration i
    is the pool entry at i mod len(pool), unchanged for i below the pool
    length, and with the follow-up suffix appended exactly once for a
    wrap-around i.  For the enforcer's gap filler (question_generator.py,
    lines 211-229) only a weaker property holds, because the base is drawn
    from the growing list: the original entries are preserved as a prefix and
    every filler entry carries the suffix AT LEAST once at the end of its
    context (possibly more than once). -/
theorem C8_cyclic_fill_tagging (pool acc : List Question) (num i : Nat)
    (hpool : pool ≠ []) (hi : i < (num - 1) - acc.length) :
    (((qbFill pool acc 0 num).drop acc.length).getD i qg_emergency
      = (if pool.length ≤ i then
          { pool.getD (i % pool.length) qg_emergency with
            context := (pool.getD (i % pool.length) qg_emergency).context ++ fuSuffix }
         else pool.getD i qg_emergency)) ∧
    (∀ (x : Question) (xs : List Question) (target : Int) (j : Nat),
      ∃ extra, gapFill (x :: xs) target j = (x :: xs) ++ extra ∧
        ∀ q ∈ extra, extSuffix.data <:+ q.context.data) := by
  constructor
  · have hpe : pool.isEmpty = false := by
      cases pool with
      | nil => exact absurd rfl hpool
      | cons a l => rfl
    rw [qbFill_spec pool acc 0 num hpe, List.drop_left]
    rw [List.getD_eq_getElem?_getD, List.getElem?_map,
      List.getElem?_range hi]
    show cyclicEntry pool (0 + i) = _
    rw [Nat.zero_add, cyclicEntry]
    by_cases hw : pool.length ≤ i
    · simp only [if_pos hw]
    · have hmod : i % pool.length = i := Nat.mod_eq_of_lt (by omega)
      simp only [if_neg hw, hmod]
  · intro x xs target j
    exact gapFill_extends x xs target j

/-- Witness for C8: the react+behavioral pool of the bank, filling 8 slots
    from an accumulator holding one entry; index 7 is a wrap-around. -/
theorem C8_witness :
    (((bankLookup "react" ++ bankLookup "general_behavioral") ≠ [] ∧
      (7 : Nat) < (10 - 1) - [qg_emergency].length) ∧
    (((qbFill (bankLookup "react" ++ bankLookup "general_behavioral") [qg_emergency] 0 10).drop
        [qg_emergency].length).getD 7 qg_emergency
      = (if (bankLookup "react" ++ bankLookup "general_behavioral").length ≤ 7 then
          { (bankLookup "react" ++ bankLookup "general_behavioral").getD
              (7 % (bankLookup "react" ++ bankLookup "general_behavioral").length) qg_emergency with
            context := ((bankLookup "react" ++ bankLookup "general_behavioral").getD
              (7 % (bankLookup "react" ++ bankLookup "general_behavioral").length)
                qg_emergency).context ++ fuSuffix }
         else (bankLookup "react" ++ bankLookup "general_behavioral").getD 7 qg_emergency)) ∧
    (∀ (x : Question) (xs : List Question) (target : Int) (j : Nat),
      ∃ extra, gapFill (x :: xs) target j = (x :: xs) ++ extra ∧
        ∀ q ∈ extra, extSuffix.data <:+ q.context.data)) :=
  ⟨⟨by decide, by decide⟩,
    C8_cyclic_fill_tagging (bankLookup "react" ++ bankLookup "general_behavioral")
      [qg_emergency] 10 7 (by decide) (by decide)⟩

/-! ## Claim C3 -/

/-- The temporal relation between an earlier attempt `a` and a later attempt
    `b` of one rotation call: attempts advance lexicographically through
    (key index, model index), and after a quota failure the key index strictly
    advances. -/
def attemptRel (cfg : RotCfg) (a b : Nat × Nat) : Prop :=
  (a.1 < b.1 ∨ (a.1 = b.1 ∧ a.2 < b.2)) ∧ (isQuotaAttempt cfg a = true → a.1 < b.1)

theorem runModelsGo_trace (cfg : RotCfg) (ki : Nat) :
    ∀ (fuel mi : Nat) (lastErr : Option String) (trace : List (Nat × Nat)),
      ∃ seg, (runModelsGo cfg ki fuel mi lastErr trace).2.2 = trace ++ seg ∧
        (∀ p ∈ seg, p.1 = ki ∧ mi ≤ p.2 ∧ p.2 < cfg.models.length) ∧
        seg.Pairwise (fun a b => a.2 < b.2) ∧
        seg.Pairwise (fun a _ => isQuotaAttempt cfg a = false) := by
  intro fuel
  induction fuel with
  | zero =>
    intro mi le tr
    exact ⟨[], by simp [runModelsGo], by simp, by simp, by simp⟩
  | succ fuel ih =>
    intro mi le tr
    by_cases hmi : mi < cfg.models.length
    · rcases hg : cfg.gen ki mi with t | msg
      · by_cases ht : t = ""
        · obtain ⟨seg, hseg, hmem, hpl, hpq⟩ := ih (mi + 1) le (tr ++ [(ki, mi)])
          refine ⟨(ki, mi) :: seg, ?_, ?_, ?_, ?_⟩
          · simp only [runModelsGo, if_pos hmi, hg, ht, ne_eq, not_true_eq_false, if_false]
            rw [hseg, List.append_assoc]
            rfl
          · intro p hp
            rcases List.mem_cons.mp hp with h | h
            · subst h
              exact ⟨rfl, Nat.le_refl mi, hmi⟩
            · obtain ⟨h1, h2, h3⟩ := hmem p h
              exact ⟨h1, by omega, h3⟩
          · refine List.Pairwise.cons ?_ hpl
            intro b hb
            have := (hmem b hb).2.1
            simpa using by omega
          · refine List.Pairwise.cons ?_ hpq
            intro b _
            simp [isQuotaAttempt, hg]
        · refine ⟨[(ki, mi)], ?_, ?_, by simp, by simp⟩
          · simp only [runModelsGo, if_pos hmi, hg, ne_eq, ht, not_false_eq_true, if_true]
          · intro p hp
            rcases List.mem_cons.mp hp with h | h
            · subst h
              exact ⟨rfl, Nat.le_refl mi, hmi⟩
            · simp at h
      · by_cases hq : strContains msg "429" = true
        · refine ⟨[(ki, mi)], ?_, ?_, by simp, by simp⟩
          · simp only [runModelsGo, if_pos hmi, hg, hq, if_true]
          · intro p hp
            rcases List.mem_cons.mp hp with h | h
            · subst h
              exact ⟨rfl, Nat.le_refl mi, hmi⟩
            · simp at h
        · obtain ⟨seg, hseg, hmem, hpl, hpq⟩ := ih (mi + 1) (some msg) (tr ++ [(ki, mi)])
          refine ⟨(ki, mi) :: seg, ?_, ?_, ?_, ?_⟩
          · simp only [runModelsGo, if_pos hmi, hg, hq, Bool.false_eq_true, if_false]
            rw [hseg, List.append_assoc]
            rfl
          · intro p hp
            rcases List.mem_cons.mp hp with h | h
            · subst h
              exact ⟨rfl, Nat.le_refl mi, hmi⟩
            · obtain ⟨h1, h2, h3⟩ := hmem p h
              exact ⟨h1, by omega, h3⟩
          · refine List.Pairwise.cons ?_ hpl
            intro b hb
            have := (hmem b hb).2.1
            simpa using by omega
          · refine List.Pairwise.cons ?_ hpq
            intro b _
            simp [isQuotaAttempt, hg, hq]
    · exact ⟨[], by simp [runModelsGo, hmi], by simp, by simp, by simp⟩

theorem segPairwise_attemptRel (cfg : RotCfg) (ki : Nat) (seg : List (Nat × Nat))
    (hmem : ∀ p ∈ seg, p.1 = ki ∧ 0 ≤ p.2 ∧ p.2 < cfg.models.length)
    (hpl : seg.Pairwise (fun a b => a.2 < b.2))
    (hpq : seg.Pairwise (fun a _ => isQuotaAttempt cfg a = false)) :
    seg.Pairwise (attemptRel cfg) := by
  have hand := hpl.and hpq
  refine hand.imp_of_mem ?_
  intro a b ha hb hab
  refine ⟨Or.inr ⟨?_, hab.1⟩, ?_⟩
  · rw [(hmem a ha).1, (hmem b hb).1]
  · intro hquota
    rw [hab.2] at hquota
    cases hquota

theorem runKeysGo_trace (cfg : RotCfg) :
    ∀ (fuel ki : Nat) (lastErr : Option String) (trace : List (Nat × Nat)),
      ∃ rest, (runKeysGo cfg fuel ki lastErr trace).2.2 = trace ++ rest ∧
        (∀ p ∈ rest, ki ≤ p.1 ∧ p.1 < cfg.keys.length ∧ p.2 < cfg.models.length) ∧
        rest.Pairwise (attemptRel cfg) := by
  intro fuel
  induction fuel with
  | zero =>
    intro ki le tr
    exact ⟨[], by simp [runKeysGo], by simp, by simp⟩
  | succ fuel ih =>
    intro ki le tr
    by_cases hki : ki < cfg.keys.length
    · by_cases hcfg : cfg.configureOk ki = true
      · have hmodels : ∀ (le2 : Option String),
            ∃ rest, (match runModelsFrom cfg ki 0 le2 tr with
              | (some t, le3, tr3) => (some t, le3, tr3)
              | (none, le3, tr3) => runKeysGo cfg fuel (ki + 1) le3 tr3).2.2 = tr ++ rest ∧
              (∀ p ∈ rest, ki ≤ p.1 ∧ p.1 < cfg.keys.length ∧ p.2 < cfg.models.length) ∧
              rest.Pairwise (attemptRel cfg) := by
          intro le2
          obtain ⟨seg, hseg, hsmem, hspl, hspq⟩ :=
            runModelsGo_trace cfg ki (cfg.models.length - 0) 0 le2 tr
          have hsegmem : ∀ p ∈ seg, ki ≤ p.1 ∧ p.1 < cfg.keys.length ∧ p.2 < cfg.models.length := by
            intro p hp
            obtain ⟨h1, _, h3⟩ := hsmem p hp
            exact ⟨by omega, by rw [h1]; exact hki, h3⟩
          have hsegrel := segPairwise_attemptRel cfg ki seg
            (fun p hp => ⟨(hsmem p hp).1, Nat.zero_le _, (hsmem p hp).2.2⟩) hspl hspq
          rcases hm : runModelsFrom cfg ki 0 le2 tr with ⟨so, le3, tr3⟩
          have htr3 : tr3 = tr ++ seg := by
            rw [runModelsFrom] at hm
            rw [← hseg, hm]
          cases so with
          | some t =>
            exact ⟨seg, by simp [htr3], hsegmem, hsegrel⟩
          | none =>
            obtain ⟨rest2, hrest2, hmem2, hrel2⟩ := ih (ki + 1) le3 tr3
            refine ⟨seg ++ rest2, ?_, ?_, ?_⟩
            · show (runKeysGo cfg fuel (ki + 1) le3 tr3).2.2 = tr ++ (seg ++ rest2)
              rw [hrest2, htr3, List.append_assoc]
            · intro p hp
              rcases List.mem_append.mp hp with h | h
              · exact hsegmem p h
              · obtain ⟨h1, h2, h3⟩ := hmem2 p h
                exact ⟨by omega, h2, h3⟩
            · rw [List.pairwise_append]
              refine ⟨hsegrel, hrel2, ?_⟩
              intro a ha b hb
              have ha1 : a.1 = ki := (hsmem a ha).1
              have hb1 : ki + 1 ≤ b.1 := (hmem2 b hb).1
              refine ⟨Or.inl (by omega), fun _ => by omega⟩
        cases hu : cfg.upload with
        | none =>
          have := hmodels le
          simpa only [runKeysGo, if_pos hki, hcfg, if_true, hu] using this
        | some up =>
          cases hup : up ki with
          | ok u =>
            have := hmodels le
            simpa only [runKeysGo, if_pos hki, hcfg, if_true, hu, hup] using this
          | error msg =>
            by_cases hq : strContains msg "429" = true
            · obtain ⟨rest2, hrest2, hmem2, hrel2⟩ := ih (ki + 1) le tr
              refine ⟨rest2, ?_, ?_, hrel2⟩
              · simpa only [runKeysGo, if_pos hki, hcfg, if_true, hu, hup, hq] using hrest2
              · intro p hp
                obtain ⟨h1, h2, h3⟩ := hmem2 p hp
                exact ⟨by omega, h2, h3⟩
            · obtain ⟨rest2, hrest2, hmem2, hrel2⟩ := ih (ki + 1) (some msg) tr
              refine ⟨rest2, ?_, ?_, hrel2⟩
              · simp only [runKeysGo, if_pos hki, hcfg, if_true, hu, hup, hq,
                  Bool.false_eq_true, if_false]
                exact hrest2
              · intro p hp
                obtain ⟨h1, h2, h3⟩ := hmem2 p hp
                exact ⟨by omega, h2, h3⟩
      · obtain ⟨rest2, hrest2, hmem2, hrel2⟩ := ih (ki + 1) le tr
        refine ⟨rest2, ?_, ?_, hrel2⟩
        · simp only [runKeysGo, if_pos hki]
          rw [if_neg (by simpa using hcfg)]
          exact hrest2
        · intro p hp
          obtain ⟨h1, h2, h3⟩ := hmem2 p hp
          exact ⟨by omega, h2, h3⟩
    · exact ⟨[], by simp [runKeysGo, hki], by simp, by simp⟩

theorem rotation_trace (cfg : RotCfg) :
    (∀ p ∈ (run_genai_with_rotation cfg).2,
      p.1 < cfg.keys.length ∧ p.2 < cfg.models.length) ∧
    ((run_genai_with_rotation cfg).2).Pairwise (attemptRel cfg) := by
  rw [run_genai_with_rotation]
  by_cases hk : cfg.keys.isEmpty
  · rw [if_pos hk]
    exact ⟨by simp, by simp⟩
  · rw [if_neg hk]
    obtain ⟨rest, hrest, hmem, hrel⟩ := runKeysGo_trace cfg (cfg.keys.length - 0) 0 none []
    rcases hr : runKeysFrom cfg 0 none [] with ⟨so, le, tr⟩
    have htr : tr = rest := by
      rw [runKeysFrom] at hr
      rw [hr] at hrest
      simpa using hrest
    cases so with
    | some t =>
      subst htr
      exact ⟨fun p hp => ⟨(hmem p hp).2.1, (hmem p hp).2.2⟩, hrel⟩
    | none =>
      subst htr
      exact ⟨fun p hp => ⟨(hmem p hp).2.1, (hmem p hp).2.2⟩, hrel⟩

theorem listGetD_eq_getElem {l : List String} {i : Nat} (h : i < l.length) (d : String) :
    l.getD i d = l.get ⟨i, h⟩ := by
  rw [List.getD_eq_getElem?_getD, List.getElem?_eq_getElem h]
  rfl

/-- C3: the attempt trace of one rotation call, as (credential position,
    model position) pairs -- the spec identifies a credential with its
    position in the credential pool.  No (credential, model) pair is
    attempted more than once: the trace is duplicate-free.  And once the
    generation attempt on the credential at position k fails with a
    Quota-classified error ("429" in the rendered message), no later attempt
    of the call uses position k: attempts advance lexicographically through
    (key index, model index) and a quota failure strictly advances the key
    index. -/
theorem C3_rotation_no_repeat_and_quota (cfg : RotCfg) :
    ((run_genai_with_rotation cfg).2).Nodup ∧
    (∀ (i j : Fin ((run_genai_with_rotation cfg).2.length)), i < j →
      isQuotaAttempt cfg ((run_genai_with_rotation cfg).2.get i) = true →
      ((run_genai_with_rotation cfg).2.get j).1
        ≠ ((run_genai_with_rotation cfg).2.get i).1) := by
  obtain ⟨hbound, hrel⟩ := rotation_trace cfg
  constructor
  · refine hrel.imp ?_
    intro a b hab heq
    subst heq
    rcases hab.1 with h | ⟨h1, h2⟩ <;> omega
  · intro i j hij hq heq
    have hr := (List.pairwise_iff_get.mp hrel) i j hij
    have hlt := hr.2 hq
    omega

/-- A concrete rotation configuration: quota failure on the first key's
    first model, then non-quota failures elsewhere. -/
def cfg_c3 : RotCfg :=
  { keys := ["a", "b"], models := ["m1", "m2"], configureOk := fun _ => true
    upload := none
    gen := fun k m => if k == 0 && m == 0 then .failure "429 quota" else .failure "500 err" }

/-- The C3 property evaluated at a concrete configuration. -/
theorem C3_witness :
    ((run_genai_with_rotation cfg_c3).2).Nodup ∧
    (∀ (i j : Fin ((run_genai_with_rotation cfg_c3).2.length)), i < j →
      isQuotaAttempt cfg_c3 ((run_genai_with_rotation cfg_c3).2.get i) = true →
      ((run_genai_with_rotation cfg_c3).2.get j).1
        ≠ ((run_genai_with_rotation cfg_c3).2.get i).1) :=
  C3_rotation_no_repeat_and_quota cfg_c3

/-! ## Claim C4 -/

/-- C4 counterexample: classification is substring matching on the rendered
    error text, not structural.  Two errors with the same signal code 500 but
    different message text classify differently: a 500 whose message happens
    to contain the digits "429" (here, a request id 4290) is classified
    Quota, while a plain 500 is Transient. -/
theorem C4_counterexample :
    ¬ (∀ e1 e2 : GenError, e1.code = e2.code →
        classify_error (errStr e1) = classify_error (errStr e2)) := by
  intro h
  have h2 := h { code := 500, message := "Internal error while processing request 4290" }
    { code := 500, message := "Internal error" } rfl
  exact absurd h2 (by decide)

theorem fallback_feedback_ne (x : String) :
    "Evaluation service unavailable. Error: " ++ x ++ "..."
      ≠ "⚠️ API Quota Limit Reached. AI evaluation is temporarily paused." := by
  intro h
  have h2 := congrArg (fun s => s.data.head?) h
  simp only [String.data_append, List.head?_append] at h2
  rw [show ("Evaluation service unavailable. Error: ").data.head? = some 'E' from rfl] at h2
  simp only [Option.or_some] at h2
  exact absurd h2 (by decide)

/-- C4 (amended): classification into Quota / ModelUnavailable / Transient is
    substring matching over the rendered error string ("429" first, then
    "404"), identically in ai_utils' rotation loop and in the evaluator's
    fallback: the evaluator's fallback emits the quota feedback exactly when
    classify_error yields Quota, and any error whose message text contains
    "429" is classified Quota regardless of its machine-readable signal
    code.  (Classification is NOT structural: see the counterexample.) -/
theorem C4_classification_is_textual (q a : String) (kws : List String) :
    (∀ msg : String,
      ((_fallback_evaluate q a kws msg).feedback
          = "⚠️ API Quota Limit Reached. AI evaluation is temporarily paused.")
        ↔ classify_error msg = ErrClass.quota) ∧
    (∀ (c1 c2 : Nat) (m : String), strContains m "429" = true →
      classify_error (errStr { code := c1, message := m }) = ErrClass.quota ∧
      classify_error (errStr { code := c2, message := m }) = ErrClass.quota) := by
  constructor
  · intro msg
    rw [classify_error, _fallback_evaluate]
    by_cases h : strContains msg "429" = true
    · rw [if_pos h, if_pos h]
      simp
    · rw [if_neg h, if_neg h]
      constructor
      · intro hfb
        exact absurd hfb (fallback_feedback_ne _)
      · intro hcl
        by_cases h4 : strContains msg "404" = true
        · rw [if_pos h4] at hcl
          cases hcl
        · rw [if_neg h4] at hcl
          cases hcl
  · intro c1 c2 m hm
    have hcon : ∀ c : Nat, strContains (errStr { code := c, message := m }) "429" = true := by
      intro c
      show strContains ((toString c ++ " ") ++ m) "429" = true
      exact strContains_append_right _ hm
    constructor
    · rw [classify_error, if_pos (hcon c1)]
    · rw [classify_error, if_pos (hcon c2)]

/-- Witness for C4 at concrete inputs. -/
theorem C4_witness :
    (strContains "quota 429 exceeded" "429" = true) ∧
    (((_fallback_evaluate "Q" "A" [] "quota 429 exceeded").feedback
        = "⚠️ API Quota Limit Reached. AI evaluation is temporarily paused.")
      ↔ classify_error "quota 429 exceeded" = ErrClass.quota) ∧
    (classify_error (errStr { code := 500, message := "quota 429 exceeded" }) = ErrClass.quota ∧
     classify_error (errStr { code := 404, message := "quota 429 exceeded" }) = ErrClass.quota) :=
  ⟨by decide,
   (C4_classification_is_textual "Q" "A" []).1 "quota 429 exceeded",
   (C4_classification_is_textual "Q" "A" []).2 500 404 "quota 429 exceeded" (by decide)⟩

/-! ## Claim C6 -/

/-- A configuration with no usable credential: get_api_keys() returned []. -/
def cfg_nokeys : RotCfg :=
  { keys := [], models := CANDIDATE_MODELS, configureOk := fun _ => true
    upload := none, gen := fun _ _ => .failure "unreached" }

/-- C6 counterexample: with no usable credential, run_genai_with_rotation
    does raise the configuration error, but NO feature caller surfaces it:
    question generation catches every exception (line 120) and returns the
    static fallback list — a best-effort result object — answer evaluation
    returns the fallback EvaluationResult with score 0, and resume structuring
    returns the empty-fields dict.  This refutes "fails with the
    configuration error surfaced to the caller; no fallback or best-effort
    result object is returned". -/
theorem C6_counterexample :
    (run_genai_with_rotation cfg_nokeys).1 = .error "No GEMINI_API_KEY found in .env" ∧
    QuestionGenerator_generate_questions cfg_nokeys (fun _ => none)
        "Python developer" "Software Engineer" 5
      = .ok (get_fallback_questions "Python developer" "Software Engineer" 5) ∧
    AnswerEvaluator_evaluate cfg_nokeys (fun _ => none) "What is React?" "an answer" []
      = _fallback_evaluate "What is React?" "an answer" [] "No GEMINI_API_KEY found in .env" ∧
    structure_resume_data cfg_nokeys (fun _ => none) "some resume text"
      = { skills := [], experience := [], projects := [] } :=
  ⟨rfl, rfl, rfl, rfl⟩

/-- C6 (amended): if the credential configuration yields no usable credential,
    run_genai_with_rotation raises the configuration error, but every feature
    caller catches it rather than surfacing it: question generation returns
    the static-bank fallback script, answer evaluation returns the fallback
    EvaluationResult (score 0), and resume structuring returns the
    empty-fields dict.  The configuration error is never propagated to the
    feature caller. -/
theorem C6_config_error_swallowed (cfg : RotCfg) (hkeys : cfg.keys = [])
    (loadsQ : String → Option (List Question)) (loadsJ : String → Option JValue)
    (resume role q a raw : String) (kws : List String) (n : Nat) :
    (run_genai_with_rotation cfg).1 = .error "No GEMINI_API_KEY found in .env" ∧
    QuestionGenerator_generate_questions cfg loadsQ resume role n
      = .ok (get_fallback_questions resume role n) ∧
    AnswerEvaluator_evaluate cfg loadsJ q a kws
      = _fallback_evaluate q a kws "No GEMINI_API_KEY found in .env" ∧
    (AnswerEvaluator_evaluate cfg loadsJ q a kws).score = 0 ∧
    structure_resume_data cfg loadsJ raw
      = { skills := [], experience := [], projects := [] } := by
  have h1 : (run_genai_with_rotation cfg).1 = .error "No GEMINI_API_KEY found in .env" := by
    rw [run_genai_with_rotation, if_pos (by rw [hkeys]; rfl)]
  have h3 : AnswerEvaluator_evaluate cfg loadsJ q a kws
      = _fallback_evaluate q a kws "No GEMINI_API_KEY found in .env" := by
    rw [AnswerEvaluator_evaluate, h1]
  refine ⟨h1, ?_, h3, ?_, ?_⟩
  · rw [QuestionGenerator_generate_questions, h1]
  · rw [h3, _fallback_evaluate]
    split <;> rfl
  · rw [structure_resume_data, h1]

/-- Witness for C6 at the concrete empty-key configuration. -/
theorem C6_witness :
    (cfg_nokeys.keys = []) ∧
    ((run_genai_with_rotation cfg_nokeys).1 = .error "No GEMINI_API_KEY found in .env" ∧
    QuestionGenerator_generate_questions cfg_nokeys (fun _ => none) "r" "SE" 5
      = .ok (get_fallback_questions "r" "SE" 5) ∧
    AnswerEvaluator_evaluate cfg_nokeys (fun _ => none) "q" "a" []
      = _fallback_evaluate "q" "a" [] "No GEMINI_API_KEY found in .env" ∧
    (AnswerEvaluator_evaluate cfg_nokeys (fun _ => none) "q" "a" []).score = 0 ∧
    structure_resume_data cfg_nokeys (fun _ => none) "raw"
      = { skills := [], experience := [], projects := [] }) :=
  ⟨rfl, C6_config_error_swallowed cfg_nokeys rfl (fun _ => none) (fun _ => none)
    "r" "SE" "q" "a" "raw" [] 5⟩

/-! ## Claim C2 -/

/-- A generation service run that succeeds and returns a JSON document whose
    score field is 7. -/
def cfg_score7 : RotCfg :=
  { keys := ["k"], models := ["m"], configureOk := fun _ => true
    upload := none, gen := fun _ _ => .success "\x7b\"score\": 7\x7d" }

/-- json.loads behavior on that document. -/
def loads_score7 : String → Option JValue :=
  fun s => if s == "\x7b\"score\": 7\x7d" then some (.jobj [("score", .jnum 7)]) else none

theorem strContains_self (m : String) : strContains m m = true := by
  rw [strContains_iff]

/-- C2 counterexample: the evaluator does NOT force the score to 0 for a
    skipped answer; it returns whatever score field the generation service's
    JSON carries (evaluator.py line 68: `score=data.get("score", 0)` with no
    override).  With the empty answer (skipped) and a service response of
    score 7, the evaluator returns score 7. -/
theorem C2_counterexample :
    is_skipped "" = true ∧
    (AnswerEvaluator_evaluate cfg_score7 loads_score7 "What is React?" "" []).score = 7 :=
  ⟨rfl, by decide⟩

/-- C2 (amended): a skipped answer (empty, whitespace-only, or containing the
    "no answer provided" marker) yields score 0 only through two mechanisms:
    (a) the fallback path always carries score 0 — in particular whenever the
    generation call fails, the evaluator returns score 0; and (b) for a
    skipped answer the prompt sent to the service replaces the answer with
    the skip marker and contains the "(MUST BE 0 since candidate skipped)"
    instruction.  The returned score is otherwise whatever the service's JSON
    provides: the zero is enforced only via prompt instruction, not in code. -/
theorem C2_skipped_answer_score (question answer : String) (kws : List String)
    (cfg : RotCfg) (loads : String → Option JValue) (msg : String) :
    (∀ (q2 a2 : String) (kws2 : List String) (m2 : String),
      (_fallback_evaluate q2 a2 kws2 m2).score = 0) ∧
    ((run_genai_with_rotation cfg).1 = .error msg →
      (AnswerEvaluator_evaluate cfg loads question answer kws).score = 0) ∧
    (is_skipped answer = true →
      strContains (evaluation_prompt question answer)
        "(MUST BE 0 since candidate skipped)" = true ∧
      strContains (evaluation_prompt question answer)
        "NO ANSWER PROVIDED. CANDIDATE SKIPPED." = true) := by
  have hfb : ∀ (q2 a2 : String) (kws2 : List String) (m2 : String),
      (_fallback_evaluate q2 a2 kws2 m2).score = 0 := by
    intro q2 a2 kws2 m2
    rw [_fallback_evaluate]
    split <;> rfl
  refine ⟨hfb, ?_, ?_⟩
  · intro h
    rw [AnswerEvaluator_evaluate, h]
    exact hfb question answer kws msg
  · intro hsk
    rw [evaluation_prompt, if_pos hsk, if_pos hsk, if_pos hsk]
    constructor
    · apply strContains_append_left
      apply strContains_append_left
      apply strContains_append_left
      apply strContains_append_right
      exact strContains_self _
    · apply strContains_append_left
      apply strContains_append_left
      apply strContains_append_left
      apply strContains_append_left
      apply strContains_append_left
      apply strContains_append_right
      exact strContains_self _

/-- Witness for C2 at concrete inputs: empty keys and the empty answer. -/
theorem C2_witness :
    ((run_genai_with_rotation cfg_nokeys).1 = .error "No GEMINI_API_KEY found in .env" ∧
     is_skipped "" = true) ∧
    ((_fallback_evaluate "Q" "" [] "boom").score = 0 ∧
     (AnswerEvaluator_evaluate cfg_nokeys (fun _ => none) "Q" "" []).score = 0 ∧
     (strContains (evaluation_prompt "Q" "") "(MUST BE 0 since candidate skipped)" = true ∧
      strContains (evaluation_prompt "Q" "") "NO ANSWER PROVIDED. CANDIDATE SKIPPED." = true)) :=
  ⟨⟨rfl, rfl⟩,
   (C2_skipped_answer_score "Q" "" [] cfg_nokeys (fun _ => none)
      "No GEMINI_API_KEY found in .env").1 "Q" "" [] "boom",
   (C2_skipped_answer_score "Q" "" [] cfg_nokeys (fun _ => none)
      "No GEMINI_API_KEY found in .env").2.1 rfl,
   (C2_skipped_answer_score "Q" "" [] cfg_nokeys (fun _ => none)
      "No GEMINI_API_KEY found in .env").2.2 rfl⟩

/-! ## Claim C5: string lemmas for the AI_ERROR sentinel path -/

theorem infix_dropWhile_of_head_not (p : Char → Bool) (m l : List Char) (c : Char)
    (hh : m.head? = some c) (hc : p c = false) (h : m <:+: l) :
    m <:+: l.dropWhile p := by
  have hsplit : l.takeWhile p ++ l.dropWhile p = l :=
    List.takeWhile_append_dropWhile (p := p) (l := l)
  rw [← hsplit] at h
  apply infix_right_of_head_notin h hh
  intro hmem
  have h2 := List.mem_takeWhile_imp hmem
  rw [hc] at h2
  cases h2

theorem prefix_preserved_listReplaceGo (old : List Char) :
    ∀ (fuel : Nat) (l m : List Char), (∀ c ∈ m, c ∉ old) → m <+: l →
      m <+: listReplaceGo old [] fuel l := by
  intro fuel
  induction fuel with
  | zero => intro l m _ h; exact h
  | succ fuel ih =>
    intro l m hchars h
    cases l with
    | nil =>
      rw [List.prefix_nil] at h
      subst h
      exact List.nil_prefix
    | cons c rest =>
      cases m with
      | nil => exact List.nil_prefix
      | cons mc mrest =>
        have hmc : mc = c := by
          obtain ⟨t, ht⟩ := h
          have := congrArg List.head? ht
          simpa using this
        have hnotpre : ¬ (old ≠ [] ∧ old <+: (c :: rest)) := by
          rintro ⟨hne, hpre⟩
          cases old with
          | nil => exact hne rfl
          | cons oc orest =>
            have hoc : oc = c := by
              obtain ⟨t, ht⟩ := hpre
              have := congrArg List.head? ht
              simpa using this
            apply hchars mc (List.mem_cons_self mc mrest)
            rw [hmc, ← hoc]
            exact List.mem_cons_self oc orest
        rw [listReplaceGo, if_neg hnotpre]
        subst hmc
        have hrest : mrest <+: rest := by
          obtain ⟨t, ht⟩ := h
          exact ⟨t, by simpa using ht⟩
        exact List.cons_prefix_cons.mpr
          ⟨rfl, ih rest mrest (fun d hd => hchars d (List.mem_cons_of_mem mc hd)) hrest⟩

theorem infix_preserved_listReplaceGo (old : List Char) :
    ∀ (fuel : Nat) (l m : List Char), m ≠ [] → (∀ c ∈ m, c ∉ old) → m <:+: l →
      m <:+: listReplaceGo old [] fuel l := by
  intro fuel
  induction fuel with
  | zero => intro l m _ _ h; exact h
  | succ fuel ih =>
    intro l m hne hchars h
    cases l with
    | nil =>
      rw [List.infix_nil] at h
      exact absurd h hne
    | cons c rest =>
      by_cases hpre : old ≠ [] ∧ old <+: (c :: rest)
      · rw [listReplaceGo, if_pos hpre, List.nil_append]
        obtain ⟨t, ht⟩ := hpre.2
        have hdrop : (c :: rest).drop old.length = t := by
          rw [← ht]
          exact List.drop_left old t
        rw [hdrop]
        apply ih t m hne hchars
        cases m with
        | nil => exact absurd rfl hne
        | cons mc mrest =>
          have hmem : mc ∉ old := hchars mc (List.mem_cons_self mc mrest)
          rw [← ht] at h
          exact infix_right_of_head_notin h rfl hmem
      · rw [listReplaceGo, if_neg hpre]
        rcases List.infix_cons_iff.mp h with hp | hi
        · have hp2 := prefix_preserved_listReplaceGo old (fuel + 1) (c :: rest) m hchars hp
          rw [listReplaceGo, if_neg hpre] at hp2
          exact hp2.isInfix
        · exact List.infix_cons (ih rest m hne hchars hi)

/-- "429" survives the left-to-right removal of "AI_ERROR:" occurrences, since
    the two strings share no character. -/
theorem contains429_pyReplace (s : String) (h : strContains s "429" = true) :
    strContains (pyReplace s "AI_ERROR:" "") "429" = true := by
  rw [strContains_iff] at h ⊢
  exact infix_preserved_listReplaceGo ("AI_ERROR:".data) s.data.length s.data "429".data
    (by decide) (by decide) h

/-- "429" survives strip: its end characters are not whitespace. -/
theorem contains429_pyStrip (s : String) (h : strContains s "429" = true) :
    strContains (pyStrip s) "429" = true := by
  rw [strContains_iff] at h ⊢
  have h1 : "429".data <:+: s.data.dropWhile Char.isWhitespace :=
    infix_dropWhile_of_head_not Char.isWhitespace _ _ '4' rfl (by decide) h
  have h2 : ("429".data).reverse <:+: (s.data.dropWhile Char.isWhitespace).reverse :=
    h1.reverse
  have h3 : ("429".data).reverse <:+:
      ((s.data.dropWhile Char.isWhitespace).reverse.dropWhile Char.isWhitespace) :=
    infix_dropWhile_of_head_not Char.isWhitespace _ _ '9' rfl (by decide) h2
  have h4 := h3.reverse
  rw [List.reverse_reverse] at h4
  exact h4

/-- The stripped AI_ERROR dict text still starts with the sentinel: the
    leading 'A' stops the left strip, and the ':' at index 8 stops the right
    strip before reaching into the sentinel. -/
theorem aiError_strip_startsWith (msg : String) :
    pyStartsWith (pyStrip ("AI_ERROR: " ++ msg)) "AI_ERROR:" = true := by
  rw [pyStartsWith, decide_eq_true_eq]
  have hcons : ("AI_ERROR: " ++ msg).data = 'A' :: ("I_ERROR: ".data ++ msg.data) := rfl
  show "AI_ERROR:".data <+:
    ((("AI_ERROR: " ++ msg).data.dropWhile Char.isWhitespace).reverse.dropWhile
      Char.isWhitespace).reverse
  rw [hcons]
  rw [show ('A' :: ("I_ERROR: ".data ++ msg.data)).dropWhile Char.isWhitespace
      = 'A' :: ("I_ERROR: ".data ++ msg.data) from by
    rw [List.dropWhile_cons]
    simp]
  rw [← hcons]
  set L := ("AI_ERROR: " ++ msg).data with hLdef
  set W := L.reverse.takeWhile Char.isWhitespace with hW
  set R := L.reverse.dropWhile Char.isWhitespace with hR
  have hsplit : W ++ R = L.reverse :=
    List.takeWhile_append_dropWhile (p := Char.isWhitespace) (l := L.reverse)
  have hLrw : L = R.reverse ++ W.reverse := by
    have h2 := congrArg List.reverse hsplit
    rw [List.reverse_append, List.reverse_reverse] at h2
    exact h2.symm
  have hpre : "AI_ERROR:".data <+: L := ⟨" ".data ++ msg.data, by rw [hLdef]; rfl⟩
  have hlen : 10 ≤ L.length := by
    rw [hLdef, String.data_append, List.length_append]
    have h3 : ("AI_ERROR: ".data).length = 10 := rfl
    omega
  by_cases hrl : 9 ≤ R.reverse.length
  · have htake : L.take 9 = "AI_ERROR:".data := by
      obtain ⟨t, ht⟩ := hpre
      rw [← ht, show (9 : Nat) = ("AI_ERROR:".data).length from rfl, List.take_left]
    rw [hLrw, List.take_append_of_le_length hrl] at htake
    rw [← htake]
    exact List.take_prefix 9 R.reverse
  · exfalso
    have hge : R.reverse.length ≤ 8 := by omega
    have h8 : L[8]? = some ':' := by
      obtain ⟨t, ht⟩ := hpre
      rw [← ht, List.getElem?_append_left (by decide)]
      decide
    rw [hLrw, List.getElem?_append_right hge] at h8
    have hmem : (':' : Char) ∈ W.reverse := List.getElem?_mem h8
    rw [List.mem_reverse] at hmem
    have hws := List.mem_takeWhile_imp hmem
    exact absurd hws (by decide)

/-- C5 counterexample: parse_resume CAN raise on the quota path.  A pdf whose
    recovered native text itself begins with the sentinel "AI_ERROR:" (and has
    more than 10 characters but fewer than 50, so the multimodal tier runs and
    its quota fallback returns that text) is misinterpreted as an AI error
    dict; its text contains no "429", so parse_resume raises
    ValueError("AI Scan failed: ...") instead of returning a ResumeData. -/
theorem C5_counterexample :
    strContains "429 quota exceeded" "429" = true ∧
    parse_resume
      { ext := ".pdf", basename := "r.pdf", pdfText := "AI_ERROR: broken badly"
        docxText := "", txtText := "" }
      (.error "429 quota exceeded") cfg_nokeys (fun _ => none)
      = .error "AI Scan failed: broken badly" :=
  ⟨by decide, rfl⟩

/-- C5 (amended): when the multimodal tier fails with a Quota-classified
    signal ("429" in the message) on a file whose native extraction was short
    enough to trigger it, and the recovered pdf text does not itself begin
    with the "AI_ERROR:" sentinel after stripping, parse_resume returns a
    ResumeData rather than raising: the keyword fallback applied to the
    recovered pdf text when that text is non-empty (its raw text stripped
    when recovery happened inside the multimodal tier, i.e. when it has more
    than 10 characters), and the minimal placeholder profile (generic skill
    and experience strings) exactly when the recovered text is entirely
    empty.  (Without the sentinel proviso the function can raise; see the
    counterexample.) -/
theorem C5_quota_fallback (f : FileModel) (msg : String) (cfg : RotCfg)
    (loads : String → Option JValue)
    (hext : f.ext = ".pdf" ∨ f.ext = ".docx" ∨ f.ext = ".txt")
    (hshort : (pyStrip (if f.ext == ".pdf" then f.pdfText
        else if f.ext == ".docx" then f.docxText else f.txtText)).length < 50)
    (hq : strContains msg "429" = true)
    (hsent : pyStartsWith (pyStrip f.pdfText) "AI_ERROR:" = false) :
    (f.pdfText = "" →
      parse_resume f (.error msg) cfg loads = .ok
        { text := "Resume uploaded (image-based, quota exhausted)"
          filename := f.basename, file_type := f.ext
          skills := ["General Software Development"]
          experience := ["Professional Experience"], projects := [] }) ∧
    (f.pdfText ≠ "" →
      parse_resume f (.error msg) cfg loads = .ok
        { text := if 10 < f.pdfText.length then pyStrip f.pdfText else f.pdfText
          filename := f.basename, file_type := f.ext
          skills := (_fallback_keyword_extraction f.pdfText).skills
          experience := (_fallback_keyword_extraction f.pdfText).experience
          projects := [] }) := by
  have hcond : (f.ext == ".pdf" || f.ext == ".docx" || f.ext == ".txt") = true := by
    rcases hext with h | h | h <;> rw [h] <;> decide
  have hbody := parse_resume f (.error msg) cfg loads
  simp only [parse_resume]
  rw [if_pos hcond, if_pos hshort]
  simp only [parse_scanned_resume_multimodal]
  rw [if_pos hq]
  by_cases hlen : f.pdfText.length > 10
  · rw [if_pos hlen]
    constructor
    · intro hempty
      rw [hempty] at hlen
      simp at hlen
    · intro _
      rw [show (_fallback_keyword_extraction f.pdfText).raw_text = f.pdfText from rfl]
      rw [if_neg (by rw [hsent]; exact Bool.false_ne_true)]
      rw [if_pos (by omega : 10 < f.pdfText.length)]
      rfl
  · rw [if_neg hlen]
    rw [show (ai_error_dict msg).raw_text = "AI_ERROR: " ++ msg from rfl]
    rw [if_pos (aiError_strip_startsWith msg)]
    have h429 : strContains
        (pyStrip (pyReplace (pyStrip ("AI_ERROR: " ++ msg)) "AI_ERROR:" "")) "429" = true := by
      apply contains429_pyStrip
      apply contains429_pyReplace
      apply contains429_pyStrip
      exact strContains_append_right _ hq
    rw [if_pos h429]
    constructor
    · intro hempty
      rw [hempty]
      rw [if_neg (by decide : ¬ ("" : String).length > 0)]
    · intro hne
      have hpos : f.pdfText.length > 0 := by
        cases hd : f.pdfText.data with
        | nil =>
          exfalso
          apply hne
          have h5 : f.pdfText = String.mk f.pdfText.data := rfl
          rw [h5, hd]
        | cons c t =>
          show 0 < f.pdfText.data.length
          rw [hd]
          simp
      rw [if_pos hpos]
      rw [if_neg (by omega : ¬ 10 < f.pdfText.length)]
      rfl

/-- A scanned pdf whose native extraction recovers a short non-empty text. -/
def cex_file : FileModel :=
  { ext := ".pdf", basename := "r.pdf", pdfText := "short py", docxText := "", txtText := "" }

/-- Witness for C5 at a concrete short pdf with a 429 multimodal failure. -/
theorem C5_witness :
    ((cex_file.ext = ".pdf" ∨ cex_file.ext = ".docx" ∨ cex_file.ext = ".txt") ∧
     (pyStrip (if cex_file.ext == ".pdf" then cex_file.pdfText
        else if cex_file.ext == ".docx" then cex_file.docxText
        else cex_file.txtText)).length < 50 ∧
     strContains "429 quota hit" "429" = true ∧
     pyStartsWith (pyStrip cex_file.pdfText) "AI_ERROR:" = false) ∧
    ((cex_file.pdfText = "" →
      parse_resume cex_file (.error "429 quota hit") cfg_nokeys (fun _ => none) = .ok
        { text := "Resume uploaded (image-based, quota exhausted)"
          filename := cex_file.basename, file_type := cex_file.ext
          skills := ["General Software Development"]
          experience := ["Professional Experience"], projects := [] }) ∧
    (cex_file.pdfText ≠ "" →
      parse_resume cex_file (.error "429 quota hit") cfg_nokeys (fun _ => none) = .ok
        { text := if 10 < cex_file.pdfText.length then pyStrip cex_file.pdfText
                  else cex_file.pdfText
          filename := cex_file.basename, file_type := cex_file.ext
          skills := (_fallback_keyword_extraction cex_file.pdfText).skills
          experience := (_fallback_keyword_extraction cex_file.pdfText).experience
          projects := [] })) :=
  ⟨⟨Or.inl rfl, by decide, by decide, by decide⟩,
   C5_quota_fallback cex_file "429 quota hit" cfg_nokeys (fun _ => none)
     (Or.inl rfl) (by decide) (by decide) (by decide)⟩

/-! ## Claim C10: a heap model of get_fallback_questions

Python dicts are mutable objects; `q["id"] = idx` writes through a reference.
To state that get_fallback_questions never mutates the module-level
QUESTION_BANK, the function is re-run over an explicit heap: a heap is a list
of Question cells, a reference is an index, the bank entries live at fixed
addresses 0..bankSize-1 (the flattening of QUESTION_BANK in insertion order),
`copy.deepcopy` allocates a fresh cell, and the id loop writes through the
collected references.  The claim is then: the bank prefix of the heap is
unchanged by a call, and the returned values coincide with the pure
get_fallback_questions, so repeated and identical calls agree. -/

/-- Read a heap cell. -/
def hRead (h : List Question) (r : Nat) : Question := h.getD r qg_emergency

/-- Write a heap cell. -/
def hWrite (h : List Question) (r : Nat) (q : Question) : List Question := h.set r q

/-- The bank cells in insertion order. -/
def flattenQ (cats : List (String × List Question)) : List Question :=
  cats.foldr (fun p acc => p.2 ++ acc) []

def bankCells : List Question := flattenQ QUESTION_BANK

def bankSize : Nat := bankCells.length

/-- Addresses of each category's entries under the canonical layout. -/
def refsFrom : List (String × List Question) → Nat → List (String × List Nat)
  | [], _ => []
  | (k, qs) :: rest, start => (k, List.range' start qs.length) :: refsFrom rest (start + qs.length)

def QUESTION_BANK_refs : List (String × List Nat) := refsFrom QUESTION_BANK 0

/-- `QUESTION_BANK.get(key, [])` at the reference level. -/
def bankRefsOf (key : String) : List Nat :=
  ((QUESTION_BANK_refs.find? (fun p => p.1 == key)).map (fun p => p.2)).getD []

/-- The cyclic filler over the heap: reads the base through its reference,
    allocates a deepcopy (appends a cell), collects the fresh reference. -/
def qbFillHGo (poolRefs : List Nat) (num : Nat) :
    Nat → List Question → List Nat → Nat → List Question × List Nat
  | 0, h, acc, _ => (h, acc)
  | fuel + 1, h, acc, idx =>
    if acc.length < num - 1 then
      if poolRefs.isEmpty then (h, acc)
      else
        let baseRef := poolRefs.getD (idx % poolRefs.length) 0
        let baseVal := hRead h baseRef
        let newVal :=
          if poolRefs.length ≤ idx then { baseVal with context := baseVal.context ++ fuSuffix }
          else baseVal
        qbFillHGo poolRefs num fuel (h ++ [newVal]) (acc ++ [h.length]) (idx + 1)
    else (h, acc)

/-- The id-reassignment loop writing through the collected references. -/
def idAssignH : List Question → List Nat → Nat → List Question
  | h, [], _ => h
  | h, r :: rest, start => idAssignH (hWrite h r { hRead h r with id := (start : Int) }) rest (start + 1)

/-- get_fallback_questions over the heap: returns the final heap and the
    values of the returned (truncated, renumbered) references. -/
def get_fallback_questions_H (resume_text role : String) (num : Nat)
    (h0 : List Question) : List Question × List Question :=
  let resume_lower := pyLower resume_text
  let candRefs := QUESTION_BANK_refs.foldl
    (fun acc p =>
      if !(p.1 == "general_behavioral" || p.1 == "general_technical")
          && strContains resume_lower p.1 then
        acc ++ p.2
      else acc)
    ([] : List Nat)
  let candRefs1 := if candRefs.isEmpty then candRefs ++ bankRefsOf "python" else candRefs
  let candRefs2 := candRefs1 ++ bankRefsOf "general_technical"
  let behRefs := bankRefsOf "general_behavioral"
  let h1 := h0 ++ [qb_intro_question role]
  let introRef := h0.length
  let poolRefs := candRefs2 ++ behRefs
  let fill := qbFillHGo poolRefs num ((num - 1) - 1) h1 [introRef] 0
  let withClose :=
    if num > 1 then (fill.1 ++ [qb_closing_question], fill.2 ++ [fill.1.length])
    else (fill.1, fill.2)
  let h4 := idAssignH withClose.1 withClose.2 1
  (h4, (withClose.2.take num).map (hRead h4))

theorem bank_read (h : List Question) (hh : h.take bankSize = bankCells)
    (r : Nat) (hr : r < bankSize) : hRead h r = bankCells.getD r qg_emergency := by
  rw [hRead, List.getD_eq_getElem?_getD]
  have h2 : (h.take bankSize)[r]? = h[r]? := by
    rw [List.getElem?_take, if_pos hr]
  rw [← h2, hh, ← List.getD_eq_getElem?_getD]

theorem map_hRead_range' (h : List Question) :
    ∀ (qs : List Question) (start : Nat),
      (∀ j, j < qs.length → hRead h (start + j) = qs.getD j qg_emergency) →
      (List.range' start qs.length).map (hRead h) = qs := by
  intro qs
  induction qs with
  | nil => intro start _; rfl
  | cons v vs ih =>
    intro start hp
    rw [List.length_cons, List.range'_succ, List.map_cons]
    have h0 := hp 0 (by simp)
    rw [Nat.add_zero] at h0
    have h0b : hRead h start = v := h0
    rw [h0b]
    congr 1
    apply ih (start + 1)
    intro j hj
    have h1 := hp (j + 1) (by simp only [List.length_cons]; omega)
    rw [show start + (j + 1) = start + 1 + j by omega] at h1
    exact h1

theorem getD_append_lt {l1 l2 : List Question} {j : Nat} (hj : j < l1.length) (d : Question) :
    (l1 ++ l2).getD j d = l1.getD j d := by
  rw [List.getD_eq_getElem?_getD, List.getD_eq_getElem?_getD,
    List.getElem?_append_left hj]

theorem getD_append_ge {l1 l2 : List Question} {j : Nat} (hj : l1.length ≤ j) (d : Question) :
    (l1 ++ l2).getD j d = l2.getD (j - l1.length) d := by
  rw [List.getD_eq_getElem?_getD, List.getD_eq_getElem?_getD,
    List.getElem?_append_right hj]

theorem gatherSim (h : List Question) (rl : String) :
    ∀ (cats : List (String × List Question)) (start : Nat),
      (∀ j, j < (flattenQ cats).length →
        hRead h (start + j) = (flattenQ cats).getD j qg_emergency) →
      start + (flattenQ cats).length ≤ h.length →
      ∀ (accR : List Nat) (accP : List Question),
        accR.map (hRead h) = accP → (∀ r ∈ accR, r < h.length) →
        (((refsFrom cats start).foldl
            (fun acc p =>
              if !(p.1 == "general_behavioral" || p.1 == "general_technical")
                  && strContains rl p.1 then acc ++ p.2 else acc) accR).map (hRead h)
          = cats.foldl
            (fun acc p =>
              if !(p.1 == "general_behavioral" || p.1 == "general_technical")
                  && strContains rl p.1 then acc ++ p.2 else acc) accP) ∧
        (∀ r ∈ (refsFrom cats start).foldl
            (fun acc p =>
              if !(p.1 == "general_behavioral" || p.1 == "general_technical")
                  && strContains rl p.1 then acc ++ p.2 else acc) accR, r < h.length) := by
  intro cats
  induction cats with
  | nil =>
    intro start _ _ accR accP hacc hbnd
    exact ⟨hacc, hbnd⟩
  | cons p rest ih =>
    intro start halign hlen accR accP hacc hbnd
    obtain ⟨k, qs⟩ := p
    rw [refsFrom]
    rw [List.foldl_cons, List.foldl_cons]
    have hflat : flattenQ ((k, qs) :: rest) = qs ++ flattenQ rest := rfl
    rw [hflat] at halign hlen
    have halign1 : ∀ j, j < qs.length → hRead h (start + j) = qs.getD j qg_emergency := by
      intro j hj
      rw [halign j (by rw [List.length_append]; omega), getD_append_lt hj]
    have halign2 : ∀ j, j < (flattenQ rest).length →
        hRead h (start + qs.length + j) = (flattenQ rest).getD j qg_emergency := by
      intro j hj
      have := halign (qs.length + j) (by rw [List.length_append]; omega)
      rw [show start + (qs.length + j) = start + qs.length + j by omega] at this
      rw [this, getD_append_ge (by omega)]
      congr 1
      omega
    have hlen2 : start + qs.length + (flattenQ rest).length ≤ h.length := by
      rw [List.length_append] at hlen
      omega
    by_cases hc : (!(k == "general_behavioral" || k == "general_technical")
        && strContains rl k) = true
    · rw [if_pos hc, if_pos hc]
      apply ih (start + qs.length) halign2 hlen2
      · rw [List.map_append, hacc, map_hRead_range' h qs start halign1]
      · intro r hr
        rcases List.mem_append.mp hr with h1 | h1
        · exact hbnd r h1
        · have := List.mem_range'_1.mp h1
          omega
    · rw [if_neg hc, if_neg hc]
      exact ih (start + qs.length) halign2 hlen2 accR accP hacc hbnd

theorem hRead_append_lt {pre ex : List Question} {r : Nat} (hr : r < pre.length) :
    hRead (pre ++ ex) r = hRead pre r := by
  rw [hRead, hRead]
  exact getD_append_lt hr qg_emergency

theorem qbFillHGo_sim (poolRefs : List Nat) (poolVals : List Question) (num : Nat)
    (pre : List Question)
    (hpool : poolRefs.map (hRead pre) = poolVals)
    (hpoolB : ∀ r ∈ poolRefs, r < pre.length) :
    ∀ (fuel : Nat) (vals : List Question) (idx : Nat),
      qbFillHGo poolRefs num fuel (pre ++ vals) (List.range' pre.length vals.length) idx
        = (pre ++ qbFillGo poolVals num fuel vals idx,
           List.range' pre.length (qbFillGo poolVals num fuel vals idx).length) := by
  have hplen : poolRefs.length = poolVals.length := by
    rw [← hpool, List.length_map]
  intro fuel
  induction fuel with
  | zero =>
    intro vals idx
    rw [qbFillHGo, qbFillGo]
  | succ fuel ih =>
    intro vals idx
    by_cases hcond : vals.length < num - 1
    · have hcondR : (List.range' pre.length vals.length).length < num - 1 := by
        rw [List.length_range']
        exact hcond
      by_cases hemp : poolRefs.isEmpty
      · have hempV : poolVals.isEmpty = true := by
          cases poolVals with
          | nil => rfl
          | cons a l =>
            exfalso
            cases poolRefs with
            | nil => simp at hplen
            | cons b m => simp at hemp
        rw [qbFillHGo, if_pos hcondR, if_pos hemp]
        rw [qbFillGo, if_pos hcond, if_pos hempV]
      · have hempV : poolVals.isEmpty = false := by
          cases poolVals with
          | nil =>
            exfalso
            cases poolRefs with
            | nil => simp at hemp
            | cons b m => simp at hplen
          | cons a l => rfl
        have hpos : 0 < poolRefs.length := by
          cases poolRefs with
          | nil => simp at hemp
          | cons b m => simp
        have hmod : idx % poolRefs.length < poolRefs.length := Nat.mod_lt idx hpos
        have hbaseRef : poolRefs.getD (idx % poolRefs.length) 0 ∈ poolRefs := by
          rw [List.getD_eq_getElem?_getD, List.getElem?_eq_getElem hmod]
          exact List.getElem_mem _
        have h1 : poolRefs.getD (idx % poolRefs.length) 0
            = poolRefs[idx % poolRefs.length] := by
          rw [List.getD_eq_getElem?_getD, List.getElem?_eq_getElem hmod]
          rfl
        have h2 : poolVals.getD (idx % poolRefs.length) qg_emergency
            = hRead pre (poolRefs[idx % poolRefs.length]) := by
          rw [← hpool, List.getD_eq_getElem?_getD, List.getElem?_map,
            List.getElem?_eq_getElem hmod]
          rfl
        have hbase : hRead (pre ++ vals) (poolRefs.getD (idx % poolRefs.length) 0)
            = poolVals.getD (idx % poolVals.length) qg_emergency := by
          rw [hRead_append_lt (hpoolB _ hbaseRef)]
          rw [← hplen, h1, h2]
        simp only [qbFillHGo, qbFillGo]
        rw [if_pos hcondR, if_pos hcond]
        have hempV2 : ¬ poolVals.isEmpty = true := by
          rw [hempV]
          exact Bool.false_ne_true
        rw [if_neg hemp]
        rw [if_neg hempV2]
        rw [hbase, hplen]
        rw [show (pre ++ vals).length = pre.length + vals.length from List.length_append _ _]
        rw [show List.range' pre.length vals.length ++ [pre.length + vals.length]
            = List.range' pre.length (vals.length + 1) from (List.range'_1_concat _ _).symm]
        rw [List.append_assoc]
        have hstep := ih (vals ++ [if poolVals.length ≤ idx then
            { poolVals.getD (idx % poolVals.length) qg_emergency with
              context := (poolVals.getD (idx % poolVals.length) qg_emergency).context
                ++ fuSuffix }
          else poolVals.getD (idx % poolVals.length) qg_emergency]) (idx + 1)
        rw [show (vals ++ [if poolVals.length ≤ idx then
            { poolVals.getD (idx % poolVals.length) qg_emergency with
              context := (poolVals.getD (idx % poolVals.length) qg_emergency).context
                ++ fuSuffix }
          else poolVals.getD (idx % poolVals.length) qg_emergency]).length
            = vals.length + 1 from by
          rw [List.length_append, List.length_cons, List.length_nil]] at hstep
        exact hstep
    · have hcondR : ¬ (List.range' pre.length vals.length).length < num - 1 := by
        rw [List.length_range']
        exact hcond
      rw [qbFillHGo, if_neg hcondR]
      rw [qbFillGo, if_neg hcond]

/-- Writing at the junction of an append replaces the head of the suffix. -/
theorem set_append_length (pre : List Question) (x v : Question) (vs : List Question) :
    (pre ++ v :: vs).set pre.length x = pre ++ x :: vs := by
  induction pre with
  | nil => rfl
  | cons a l ih =>
    show a :: (l ++ v :: vs).set l.length x = a :: (l ++ x :: vs)
    rw [ih]

/-- Reading at the junction of an append yields the head of the suffix. -/
theorem getD_append_length (pre : List Question) (v : Question) (vs : List Question)
    (d : Question) : (pre ++ v :: vs).getD pre.length d = v := by
  rw [getD_append_ge (Nat.le_refl _) d, Nat.sub_self]
  rfl

/-- Id reassignment through the freshly allocated references simulates
    `assignIdsFrom` on the new suffix, leaving the prefix untouched. -/
theorem idAssignH_sim :
    ∀ (vals pre : List Question) (start : Nat),
      idAssignH (pre ++ vals) (List.range' pre.length vals.length) start
        = pre ++ assignIdsFrom start vals := by
  intro vals
  induction vals with
  | nil =>
    intro pre start
    rfl
  | cons v vs ih =>
    intro pre start
    have hrange : List.range' pre.length (v :: vs).length
        = pre.length :: List.range' (pre.length + 1) vs.length := by
      rw [List.length_cons, List.range'_succ]
    rw [hrange, idAssignH]
    have hr : hRead (pre ++ v :: vs) pre.length = v := by
      rw [hRead]
      exact getD_append_length pre v vs qg_emergency
    rw [hr, hWrite, set_append_length]
    rw [assignIdsFrom]
    have happ : pre ++ { v with id := (start : Int) } :: vs
        = (pre ++ [{ v with id := (start : Int) }]) ++ vs := by
      rw [List.append_assoc]
      rfl
    have hlen : pre.length + 1 = (pre ++ [{ v with id := (start : Int) }]).length := by
      rw [List.length_append, List.length_cons, List.length_nil]
    rw [happ, hlen]
    refine (ih (pre ++ [{ v with id := (start : Int) }]) (start + 1)).trans ?_
    rw [List.append_assoc]
    rfl

/-- Taking a prefix of an arithmetic block of addresses. -/
theorem take_range' :
    ∀ (n s m : Nat), (List.range' s n).take m = List.range' s (min m n) := by
  intro n
  induction n with
  | zero =>
    intro s m
    rw [Nat.min_zero]
    show ([] : List Nat).take m = ([] : List Nat)
    exact List.take_nil
  | succ n ih =>
    intro s m
    cases m with
    | zero => rfl
    | succ m =>
      rw [List.range'_succ, List.take_succ_cons, ih (s + 1) m,
        Nat.succ_min_succ, List.range'_succ]

/-- Reading back a truncated block of fresh references recovers the
    truncated suffix values. -/
theorem readback_take (h0 A : List Question) (num : Nat) :
    ((List.range' h0.length A.length).take num).map (hRead (h0 ++ A)) = A.take num := by
  have hcond : ∀ j, j < (A.take num).length →
      hRead (h0 ++ A) (h0.length + j) = (A.take num).getD j qg_emergency := by
    intro j hj
    rw [List.length_take] at hj
    have hjn : j < num := lt_of_lt_of_le hj (Nat.min_le_left _ _)
    rw [hRead, getD_append_ge (Nat.le_add_right _ _), Nat.add_sub_cancel_left]
    rw [List.getD_eq_getElem?_getD, List.getD_eq_getElem?_getD, List.getElem?_take,
      if_pos hjn]
  have hmap := map_hRead_range' (h0 ++ A) (A.take num) h0.length hcond
  rw [List.length_take] at hmap
  rw [take_range']
  exact hmap

/-- The reference pool assembled by the heap-level `get_fallback_questions`
    (matched skills, python default, general_technical, general_behavioral). -/
def qbRefPool (resume_lower : String) : List Nat :=
  let candRefs := QUESTION_BANK_refs.foldl
    (fun acc p =>
      if !(p.1 == "general_behavioral" || p.1 == "general_technical")
          && strContains resume_lower p.1 then
        acc ++ p.2
      else acc)
    ([] : List Nat)
  let candRefs1 := if candRefs.isEmpty then candRefs ++ bankRefsOf "python" else candRefs
  (candRefs1 ++ bankRefsOf "general_technical") ++ bankRefsOf "general_behavioral"

/-- The value pool assembled by `get_fallback_questions` (lines 158-176). -/
def qbPool (resume_lower : String) : List Question :=
  let candidate0 := gatherCandidates resume_lower
  let candidate1 := if candidate0.isEmpty then candidate0 ++ bankLookup "python" else candidate0
  (candidate1 ++ bankLookup "general_technical") ++ bankLookup "general_behavioral"

/-- The pre-truncation script of `get_fallback_questions`: intro, cyclic
    filler, and (for more than one question) the closing question. -/
def qbFinal1 (resume_text role : String) (num : Nat) : List Question :=
  let F := qbFillGo (qbPool (pyLower resume_text)) num ((num - 1) - 1)
    [qb_intro_question role] 0
  if num > 1 then F ++ [qb_closing_question] else F

/-- Below the pool computation the heap pipeline agrees with the pure one:
    filling, closing and id assignment only append to the heap, and reading
    back the collected references yields the pure script. -/
theorem pipeH (h0 : List Question) (role : String) (num : Nat)
    (poolRefs : List Nat) (poolVals : List Question)
    (hpool : poolRefs.map (hRead h0) = poolVals)
    (hB : ∀ r ∈ poolRefs, r < h0.length) :
    (let h1 := h0 ++ [qb_intro_question role]
     let fill := qbFillHGo poolRefs num ((num - 1) - 1) h1 [h0.length] 0
     let withClose :=
       if num > 1 then (fill.1 ++ [qb_closing_question], fill.2 ++ [fill.1.length])
       else fill
     let h4 := idAssignH withClose.1 withClose.2 1
     (h4, (withClose.2.take num).map (hRead h4)))
    = (let F := qbFillGo poolVals num ((num - 1) - 1) [qb_intro_question role] 0
       let F1 := if num > 1 then F ++ [qb_closing_question] else F
       (h0 ++ assignIdsFrom 1 F1, (assignIdsFrom 1 F1).take num)) := by
  have hfill' : qbFillHGo poolRefs num ((num - 1) - 1) (h0 ++ [qb_intro_question role])
      [h0.length] 0
      = (h0 ++ qbFillGo poolVals num ((num - 1) - 1) [qb_intro_question role] 0,
         List.range' h0.length
           (qbFillGo poolVals num ((num - 1) - 1) [qb_intro_question role] 0).length) :=
    qbFillHGo_sim poolRefs poolVals num h0 hpool hB ((num - 1) - 1)
      [qb_intro_question role] 0
  by_cases hnum : num > 1
  · simp only [hfill', if_pos hnum]
    set F := qbFillGo poolVals num ((num - 1) - 1) [qb_intro_question role] 0 with hF
    rw [show (h0 ++ F).length = h0.length + F.length from List.length_append _ _]
    rw [show List.range' h0.length F.length ++ [h0.length + F.length]
        = List.range' h0.length (F.length + 1) from (List.range'_1_concat _ _).symm]
    rw [List.append_assoc]
    rw [show F.length + 1 = (F ++ [qb_closing_question]).length from by
      rw [List.length_append, List.length_cons, List.length_nil]]
    rw [idAssignH_sim (F ++ [qb_closing_question]) h0 1]
    rw [show ((F ++ [qb_closing_question]) : List Question).length
        = (assignIdsFrom 1 (F ++ [qb_closing_question])).length
        from (assignIdsFrom_length 1 _).symm]
    rw [readback_take]
  · simp only [hfill', if_neg hnum]
    set F := qbFillGo poolVals num ((num - 1) - 1) [qb_intro_question role] 0 with hF
    rw [idAssignH_sim F h0 1]
    rw [show (F : List Question).length = (assignIdsFrom 1 F).length
        from (assignIdsFrom_length 1 _).symm]
    rw [readback_take]

theorem isEmpty_map_hRead (h : List Question) (l : List Nat) :
    (l.map (hRead h)).isEmpty = l.isEmpty := by
  cases l with
  | nil => rfl
  | cons a t => rfl

/-- On any heap whose first `bankSize` cells are the bank, the heap-level
    `get_fallback_questions` leaves those cells unchanged and returns the
    values of the pure `get_fallback_questions`. -/
theorem gfq_H_spec (resume_text role : String) (num : Nat) (h0 : List Question)
    (hh : h0.take bankSize = bankCells) :
    (get_fallback_questions_H resume_text role num h0).1.take bankSize = bankCells ∧
    (get_fallback_questions_H resume_text role num h0).2
      = get_fallback_questions resume_text role num := by
  have hlen0 : bankSize ≤ h0.length := by
    have hl := congrArg List.length hh
    rw [List.length_take] at hl
    rw [show bankCells.length = bankSize from rfl] at hl
    omega
  have halign : ∀ j, j < (flattenQ QUESTION_BANK).length →
      hRead h0 (0 + j) = (flattenQ QUESTION_BANK).getD j qg_emergency := by
    intro j hj
    rw [Nat.zero_add]
    exact bank_read h0 hh j hj
  have hle : 0 + (flattenQ QUESTION_BANK).length ≤ h0.length := by
    rw [Nat.zero_add]
    exact hlen0
  have hg := gatherSim h0 (pyLower resume_text) QUESTION_BANK 0 halign hle [] [] rfl
    (by intro r hr; exact absurd hr (List.not_mem_nil r))
  have hg1 : (QUESTION_BANK_refs.foldl
      (fun acc p =>
        if !(p.1 == "general_behavioral" || p.1 == "general_technical")
            && strContains (pyLower resume_text) p.1 then acc ++ p.2 else acc)
      ([] : List Nat)).map (hRead h0) = gatherCandidates (pyLower resume_text) := hg.1
  have hgB : ∀ r ∈ QUESTION_BANK_refs.foldl
      (fun acc p =>
        if !(p.1 == "general_behavioral" || p.1 == "general_technical")
            && strContains (pyLower resume_text) p.1 then acc ++ p.2 else acc)
      ([] : List Nat), r < h0.length := hg.2
  have hpyS : ∀ x ∈ bankRefsOf "python", x < bankSize := by decide
  have hgtS : ∀ x ∈ bankRefsOf "general_technical", x < bankSize := by decide
  have hgbS : ∀ x ∈ bankRefsOf "general_behavioral", x < bankSize := by decide
  have hread := bank_read h0 hh
  have hPy : (bankRefsOf "python").map (hRead h0) = bankLookup "python" := by
    rw [show bankRefsOf "python" = [0, 1, 2] from by decide]
    simp only [List.map_cons, List.map_nil]
    rw [hread 0 (by decide), hread 1 (by decide), hread 2 (by decide)]
    rfl
  have hGT : (bankRefsOf "general_technical").map (hRead h0)
      = bankLookup "general_technical" := by
    rw [show bankRefsOf "general_technical" = [8, 9, 10] from by decide]
    simp only [List.map_cons, List.map_nil]
    rw [hread 8 (by decide), hread 9 (by decide), hread 10 (by decide)]
    rfl
  have hGB : (bankRefsOf "general_behavioral").map (hRead h0)
      = bankLookup "general_behavioral" := by
    rw [show bankRefsOf "general_behavioral" = [11, 12, 13, 14] from by decide]
    simp only [List.map_cons, List.map_nil]
    rw [hread 11 (by decide), hread 12 (by decide), hread 13 (by decide),
      hread 14 (by decide)]
    rfl
  have hif : ∀ (cr : List Nat) (cp : List Question), cr.map (hRead h0) = cp →
      (if cr.isEmpty then cr ++ bankRefsOf "python" else cr).map (hRead h0)
        = (if cp.isEmpty then cp ++ bankLookup "python" else cp) := by
    intro cr cp hcr
    by_cases hE : cr.isEmpty
    · have hEp : cp.isEmpty = true := by
        rw [← hcr, isEmpty_map_hRead]
        exact hE
      rw [if_pos hE, if_pos hEp, List.map_append, hcr, hPy]
    · have hEp : ¬ cp.isEmpty = true := by
        rw [← hcr, isEmpty_map_hRead]
        exact hE
      rw [if_neg hE, if_neg hEp, hcr]
  have hpool : (qbRefPool (pyLower resume_text)).map (hRead h0)
      = qbPool (pyLower resume_text) := by
    simp only [qbRefPool, qbPool]
    rw [List.map_append, List.map_append]
    rw [hGT, hGB, hif _ _ hg1]
  have hB : ∀ r ∈ qbRefPool (pyLower resume_text), r < h0.length := by
    intro r hr
    simp only [qbRefPool, List.mem_append] at hr
    rcases hr with (hr | hr) | hr
    · by_cases hE : (QUESTION_BANK_refs.foldl
          (fun acc p =>
            if !(p.1 == "general_behavioral" || p.1 == "general_technical")
                && strContains (pyLower resume_text) p.1 then acc ++ p.2 else acc)
          ([] : List Nat)).isEmpty
      · rw [if_pos hE, List.mem_append] at hr
        rcases hr with hr | hr
        · exact hgB r hr
        · exact lt_of_lt_of_le (hpyS r hr) hlen0
      · rw [if_neg hE] at hr
        exact hgB r hr
    · exact lt_of_lt_of_le (hgtS r hr) hlen0
    · exact lt_of_lt_of_le (hgbS r hr) hlen0
  have key : get_fallback_questions_H resume_text role num h0
      = (h0 ++ assignIdsFrom 1 (qbFinal1 resume_text role num),
         (assignIdsFrom 1 (qbFinal1 resume_text role num)).take num) :=
    pipeH h0 role num (qbRefPool (pyLower resume_text)) (qbPool (pyLower resume_text))
      hpool hB
  have gfq_eq : (assignIdsFrom 1 (qbFinal1 resume_text role num)).take num
      = get_fallback_questions resume_text role num := rfl
  constructor
  · rw [key]
    show (h0 ++ assignIdsFrom 1 (qbFinal1 resume_text role num)).take bankSize = bankCells
    rw [List.take_append_of_le_length hlen0]
    exact hh
  · rw [key]
    exact gfq_eq

/-- C10: `get_fallback_questions` never mutates the module-level
    QUESTION_BANK. In the heap model of Python's mutable dicts, a call on
    any heap whose first cells hold the bank leaves those cells unchanged
    (every returned entry is a fresh cell: the intro and closing questions
    are newly constructed and the filler appends deep copies, so the id
    renumbering and context tagging write only to fresh cells), the call
    returns exactly the pure function of its arguments, and re-running the
    identical call on the post-call heap returns an equal result. -/
theorem C10_bank_not_mutated (resume_text role : String) (num : Nat)
    (h0 : List Question) (hh : h0.take bankSize = bankCells) :
    (get_fallback_questions_H resume_text role num h0).1.take bankSize = bankCells ∧
    (get_fallback_questions_H resume_text role num h0).2
      = get_fallback_questions resume_text role num ∧
    (get_fallback_questions_H resume_text role num
        (get_fallback_questions_H resume_text role num h0).1).2
      = (get_fallback_questions_H resume_text role num h0).2 := by
  obtain ⟨h1, h2⟩ := gfq_H_spec resume_text role num h0 hh
  exact ⟨h1, h2, ((gfq_H_spec resume_text role num _ h1).2).trans h2.symm⟩

theorem C10_witness :
    bankCells.take bankSize = bankCells ∧
    ((get_fallback_questions_H "I built python and react apps" "Backend Engineer" 6
        bankCells).1.take bankSize = bankCells ∧
     (get_fallback_questions_H "I built python and react apps" "Backend Engineer" 6
        bankCells).2
       = get_fallback_questions "I built python and react apps" "Backend Engineer" 6 ∧
     (get_fallback_questions_H "I built python and react apps" "Backend Engineer" 6
         (get_fallback_questions_H "I built python and react apps" "Backend Engineer" 6
           bankCells).1).2
       = (get_fallback_questions_H "I built python and react apps" "Backend Engineer" 6
           bankCells).2) :=
  ⟨rfl, C10_bank_not_mutated "I built python and react apps" "Backend Engineer" 6
    bankCells rfl⟩
